import Mathlib

/-!
Verification of the `metal-cation-hydrolysis-3d-visualization` repository.

The repository is a Three.js visualization of [Al(H₂O)₆]³⁺ hydrolysis.
This file gives a shallow embedding of its source modules:

* `atoms.js`   — octahedral geometry of the complex (`Hydro.Atoms`);
* `interaction.js` — raycaster click-to-highlight state machine
  (`Hydro.Interaction`);
* `main.js`    — the stage-button click handler (`Hydro.MainJS`);
* `stages.js`  — GSAP stage animations (`Hydro.Stages`);

and proves or refutes the behavioural claims made about them.
Vector arithmetic is embedded exactly over `ℝ` (the JavaScript code uses
IEEE doubles; the claims under study are about the exact geometry the
code expresses, so the embedding uses exact real arithmetic).
-/

namespace Hydro

/-- Exact-real model of `THREE.Vector3`. -/
@[ext]
structure Vec3 where
  x : ℝ
  y : ℝ
  z : ℝ

namespace Vec3

noncomputable instance : Add Vec3 := ⟨fun a b => ⟨a.x + b.x, a.y + b.y, a.z + b.z⟩⟩

noncomputable instance : Sub Vec3 := ⟨fun a b => ⟨a.x - b.x, a.y - b.y, a.z - b.z⟩⟩

noncomputable instance : Neg Vec3 := ⟨fun a => ⟨-a.x, -a.y, -a.z⟩⟩

noncomputable instance : SMul ℝ Vec3 := ⟨fun r a => ⟨r * a.x, r * a.y, r * a.z⟩⟩

/-- `Vector3.dot`. -/
def dot (a b : Vec3) : ℝ := a.x * b.x + a.y * b.y + a.z * b.z

/-- `Vector3.crossVectors`. -/
def cross (a b : Vec3) : Vec3 :=
  ⟨a.y * b.z - a.z * b.y, a.z * b.x - a.x * b.z, a.x * b.y - a.y * b.x⟩

/-- `Vector3.length`. -/
noncomputable def vnorm (a : Vec3) : ℝ := Real.sqrt (dot a a)

/-- `Vector3.normalize`: three.js divides by `length() || 1`, so the zero
vector is divided by `1` and left unchanged. -/
noncomputable def normalize (a : Vec3) : Vec3 :=
  (1 / (if vnorm a = 0 then 1 else vnorm a)) • a

end Vec3

/-! ## Model of `src/atoms.js` -/

namespace Atoms

open Vec3

/-- `R_AL_O` — Al–O coordination bond length (Å). -/
noncomputable def R_AL_O : ℝ := 1.90

/-- `R_O_H` — O–H covalent bond length (Å). -/
noncomputable def R_O_H : ℝ := 0.96

/-- `THREE.MathUtils.degToRad`. -/
noncomputable def degToRad (deg : ℝ) : ℝ := deg * (Real.pi / 180)

/-- `H_O_H_ANGLE = degToRad(104.5)`. -/
noncomputable def H_O_H_ANGLE : ℝ := degToRad 104.5

/-- `SPHERE_SEGMENTS`. -/
def SPHERE_SEGMENTS : ℕ := 32

/-- The `RADII` export (van der Waals ÷ 3). -/
structure RadiiT where
  Al : ℝ
  O : ℝ
  H : ℝ

noncomputable def RADII : RadiiT := { Al := 0.45, O := 0.30, H := 0.18 }

/-- Tags for the materials assigned in `atoms.js` (`aluminumMaterial`,
`oxygenMaterial.clone()`, `hydrogenMaterial.clone()`). -/
inductive AtomMat where
  | aluminum
  | oxygenClone
  | hydrogenClone
deriving DecidableEq

/-- A `THREE.Mesh` built by `atoms.js`: name, `userData` fields, sphere
radius, material and (local) position.  A fresh mesh has position
`(0,0,0)` (the three.js default) until `position` is written. -/
structure AtomMesh where
  name : String
  element : String
  role : String
  charge : String
  radius : ℝ
  material : AtomMat
  position : Vec3

/-- A `THREE.Group` holding the meshes of one water molecule. -/
structure WaterGroup where
  name : String
  children : List AtomMesh

/-- `OCTA_DIRS` — the six octahedral directions. -/
noncomputable def OCTA_DIRS : List Vec3 :=
  [⟨1, 0, 0⟩, ⟨-1, 0, 0⟩, ⟨0, 1, 0⟩, ⟨0, -1, 0⟩, ⟨0, 0, 1⟩, ⟨0, 0, -1⟩]

/-- `createAlCenter()` — the Al³⁺ mesh; its position is never written, so
it stays at the three.js default, the origin. -/
noncomputable def createAlCenter : AtomMesh :=
  { name := "Al"
    element := "Al"
    role := "Metal center (Lewis acid)"
    charge := "+3"
    radius := RADII.Al
    material := .aluminum
    position := ⟨0, 0, 0⟩ }

/-- Oxygen position inside `createWaterMolecule`:
`direction.clone().multiplyScalar(R_AL_O)`. -/
noncomputable def oPosOf (direction : Vec3) : Vec3 := R_AL_O • direction

/-- The oxygen mesh of `createWaterMolecule(direction)`. -/
noncomputable def oxygenMesh (direction : Vec3) : AtomMesh :=
  { name := "O"
    element := "O"
    role := "Electron-pair donor (Lewis base)"
    charge := "δ−"
    radius := RADII.O
    material := .oxygenClone
    position := oPosOf direction }

/-- `halfAngle = H_O_H_ANGLE / 2`. -/
noncomputable def halfAngle : ℝ := H_O_H_ANGLE / 2

/-- `zAxis = direction.clone().normalize()`. -/
noncomputable def zAxisOf (direction : Vec3) : Vec3 := normalize direction

/-- The `arbitrary` perpendicular seed: `(0,1,0)`, replaced by `(1,0,0)`
when `|zAxis ⬝ (0,1,0)| > 0.99`. -/
noncomputable def arbitraryOf (direction : Vec3) : Vec3 :=
  if 0.99 < |dot (zAxisOf direction) ⟨0, 1, 0⟩| then ⟨1, 0, 0⟩ else ⟨0, 1, 0⟩

/-- `xAxis = cross(zAxis, arbitrary).normalize()`. -/
noncomputable def xAxisOf (direction : Vec3) : Vec3 :=
  normalize (cross (zAxisOf direction) (arbitraryOf direction))

/-- `yAxis = cross(xAxis, zAxis).normalize()` (computed but unused by the
hydrogen placement). -/
noncomputable def yAxisOf (direction : Vec3) : Vec3 :=
  normalize (cross (xAxisOf direction) (zAxisOf direction))

/-- `hDir` for hydrogen `i ∈ {0,1}`:
`(cos(π−halfAngle))·zAxis + (sin(π−halfAngle))·(±xAxis)`, normalized. -/
noncomputable def hDirOf (direction : Vec3) (i : ℕ) : Vec3 :=
  normalize
    (Real.cos (Real.pi - halfAngle) • zAxisOf direction
      + Real.sin (Real.pi - halfAngle)
        • (if i = 0 then xAxisOf direction else -(xAxisOf direction)))

/-- `hMesh.position = oPos + R_O_H · hDir`. -/
noncomputable def hPosOf (direction : Vec3) (i : ℕ) : Vec3 :=
  oPosOf direction + R_O_H • hDirOf direction i

/-- The hydrogen mesh `H${i+1}` of `createWaterMolecule(direction)`. -/
noncomputable def hydrogenMesh (direction : Vec3) (i : ℕ) : AtomMesh :=
  { name := "H" ++ toString (i + 1)
    element := "H"
    role := "Proton (may dissociate in hydrolysis)"
    charge := "δ+"
    radius := RADII.H
    material := .hydrogenClone
    position := hPosOf direction i }

/-- `createWaterMolecule(direction)`: a group named `Water` containing the
oxygen mesh followed by the two hydrogen meshes (loop `i = 0, 1`). -/
noncomputable def createWaterMolecule (direction : Vec3) : WaterGroup :=
  { name := "Water"
    children := [oxygenMesh direction, hydrogenMesh direction 0, hydrogenMesh direction 1] }

/-- The record returned by `buildComplex()`. The `complex` group contains
`al` followed by the six water groups; we keep the fields it returns. -/
structure ComplexT where
  complexName : String
  al : AtomMesh
  waters : List WaterGroup

/-- `buildComplex()` — the Al center plus one water per octahedral
direction. -/
noncomputable def buildComplex : ComplexT :=
  { complexName := "AlComplex"
    al := createAlCenter
    waters := OCTA_DIRS.map createWaterMolecule }

end Atoms

/-! ## Model of `src/interaction.js`

The raycaster click-to-highlight state machine.  The DOM lookups done at
module load (`document.getElementById(...)`) are modelled by presence
flags; a JavaScript `TypeError` raised by reading a property of a `null`
element is modelled by `Except.error ()` (the partial DOM writes made
before such a throw are unobservable to the rest of the program, since
the exception aborts the handler). -/

/-- Point update of a map, used wherever the JS code mutates one field of
an object held in a collection. -/
def updF {β : Type} (f : ℕ → β) (i : ℕ) (b : β) : ℕ → β :=
  fun j => if j = i then b else f j

namespace Interaction

/-- Material identities. `highlight` is the module-level
`highlightMaterial`; every other material is `std n`. -/
inductive Material where
  | highlight
  | std (n : ℕ)
deriving DecidableEq

/-- `mesh.userData` as displayed in the info panel. -/
structure UserData where
  element : String
  role : String
  charge : String
deriving DecidableEq

/-- An object reached by `scene.traverse`: bond lines have
`isMesh = false`, atom spheres have `isMesh = true`.  Its current
material lives in the separate `materials` map, keyed by `id`. -/
structure SceneObj where
  id : ℕ
  name : String
  isMesh : Bool
  userData : UserData
deriving DecidableEq

/-- The `#info-panel` DOM content: the four text fields and whether the
`hidden` class is present. -/
structure PanelState where
  title : String
  element : String
  role : String
  charge : String
  hidden : Bool
deriving DecidableEq

/-- Which of the DOM elements looked up at module load are present. -/
structure InterDom where
  infoPanel : Bool
  infoTitle : Bool
  infoElement : Bool
  infoRole : Bool
  infoCharge : Bool
  infoClose : Bool
deriving DecidableEq

/-- Module state of `interaction.js`: the two mutable module-level
variables, the materials of all scene meshes, and the info panel. -/
structure IState where
  previousSelection : Option ℕ
  previousMaterial : Option Material
  materials : ℕ → Material
  panel : PanelState

/-- JS `x || '—'`: the empty string is falsy. -/
def orDash (s : String) : String := if s = "" then "—" else s

/-- The restore step shared by both handlers:
`if (previousSelection && previousMaterial) previousSelection.material =
previousMaterial`. -/
def restorePrev (st : IState) : IState :=
  match st.previousSelection, st.previousMaterial with
  | some p, some pm => { st with materials := updF st.materials p pm }
  | _, _ => st

/-- The state-update half of `selectAtom(mesh)`: restore the previous
selection's material, then record the clicked mesh and its current
material and swap in `highlightMaterial`. -/
def selectCore (obj : SceneObj) (st : IState) : IState :=
  { restorePrev st with
    previousSelection := some obj.id
    previousMaterial := some ((restorePrev st).materials obj.id)
    materials := updF (restorePrev st).materials obj.id Material.highlight }

/-- `selectAtom(mesh)`.  Restores the previous selection's material,
records and swaps the clicked mesh's material for `highlightMaterial`,
then populates and shows the info panel.  Inside `if (infoPanel)` the
four child elements are dereferenced *without* a guard; a missing child
throws (`Except.error ()`). -/
def selectAtom (dom : InterDom) (obj : SceneObj) (st : IState) : Except Unit IState :=
  let st2 := selectCore obj st
  if dom.infoPanel then
    if dom.infoTitle && dom.infoElement && dom.infoRole && dom.infoCharge then
      Except.ok
        { st2 with
          panel :=
            { title := orDash obj.name
              element := orDash obj.userData.element
              role := orDash obj.userData.role
              charge := orDash obj.userData.charge
              hidden := false } }
    else
      -- `infoTitle.textContent = ...` (or a later sibling) throws on null
      Except.error ()
  else
    Except.ok st2

/-- The state-update half of `deselectAtom()`: restore the previous
selection's material and clear both module-level variables. -/
def deselectCore (st : IState) : IState :=
  match st.previousSelection, st.previousMaterial with
  | some p, some pm =>
      { st with
        materials := updF st.materials p pm
        previousSelection := none
        previousMaterial := none }
  | _, _ => st

/-- `deselectAtom()`.  Every DOM access is guarded, so it cannot throw. -/
def deselectAtom (dom : InterDom) (st : IState) : IState :=
  let st1 := deselectCore st
  if dom.infoPanel then
    { st1 with panel := { st1.panel with hidden := true } }
  else
    st1

/-- Ordering of raycaster hits by distance (three.js sorts intersections
ascending by `distance`). -/
def hitLe (a b : SceneObj × ℚ) : Prop := a.2 ≤ b.2

instance : DecidableRel hitLe := fun a b => inferInstanceAs (Decidable (a.2 ≤ b.2))

instance : IsTotal (SceneObj × ℚ) hitLe := ⟨fun a b => le_total a.2 b.2⟩

instance : IsTrans (SceneObj × ℚ) hitLe := ⟨fun _ _ _ hab hbc => le_trans hab hbc⟩

/-- The unsorted intersection list: each candidate that the ray hits,
paired with its hit distance.  The ray itself is abstracted by the
`dist` oracle (`none` = the ray misses the object). -/
def rayHits (dist : SceneObj → Option ℚ) (objs : List SceneObj) : List (SceneObj × ℚ) :=
  objs.filterMap (fun o => (dist o).map (fun d => (o, d)))

/-- `raycaster.intersectObjects(meshes, false)`: hits sorted by
distance. -/
def intersectObjects (dist : SceneObj → Option ℚ) (objs : List SceneObj) :
    List (SceneObj × ℚ) :=
  List.insertionSort hitLe (rayHits dist objs)

/-- The `pointerdown` listener body from `initInteraction`: collect the
`isMesh` objects of the scene, intersect, then select the closest hit or
deselect. -/
def pointerdown (dom : InterDom) (dist : SceneObj → Option ℚ)
    (scene : List SceneObj) (st : IState) : Except Unit IState :=
  let meshes := scene.filter (fun o => o.isMesh)
  match intersectObjects dist meshes with
  | h :: _ => selectAtom dom h.1 st
  | [] => Except.ok (deselectAtom dom st)

end Interaction

/-! ## Model of the stage-button handler in `main.js`

The handler reads `currentStage` (a module-level mutable variable),
returns early when the clicked stage equals it, and otherwise updates
`currentStage`, moves the `active` CSS class, and logs.  The `TODO`
switch for stage animations is commented out in the source, so the 3D
scene is never touched; the scene is therefore a type parameter of the
state, passed through untouched. -/

namespace MainJS

/-- One `.stage-btn` element: its parsed `data-stage` value and the text
of its `.stage-label` child. -/
structure StageBtn where
  stage : ℤ
  label : String
deriving DecidableEq

/-- State of `main.js` visible to the stage-button handler: the
module-level `currentStage`, the buttons' `active` classes, the console
log, and the whole 3D scene (of arbitrary type `σ`). -/
structure MainState (σ : Type) where
  currentStage : ℤ
  btnActive : List Bool
  logs : List String
  scene : σ

/-- The console message `→ Stage ${stage}: ${label}`. -/
def logMsg (b : StageBtn) : String :=
  "→ Stage " ++ toString b.stage ++ ": " ++ b.label

/-- The click handler attached to button `k` of the `.stage-btn` list. -/
def stageBtnClick {σ : Type} (btns : List StageBtn) (k : ℕ) (st : MainState σ) :
    MainState σ :=
  match btns.get? k with
  | none => st
  | some b =>
    if b.stage = st.currentStage then st
    else
      { st with
        currentStage := b.stage
        btnActive := (st.btnActive.map (fun _ => false)).set k true
        logs := st.logs ++ [logMsg b] }

end MainJS

/-! ## Model of `src/stages.js`

GSAP-driven stage animations.  A GSAP timeline is modelled by its
identity (a counter, so distinct `gsap.timeline()` calls yield distinct
timelines) together with the list of tween commands added to it; a
tween's only effect we track is the final value it drives its target to,
applied by `applyCmd` when the timeline runs to completion.  `liveTl`
counts timelines that have been created and not yet killed. -/

namespace Stages

open Vec3

/-- An object of the `_complex` scene graph in `traverse` order. -/
structure StObj where
  id : ℕ
  name : String
  isMesh : Bool
  isGroup : Bool
deriving DecidableEq

/-- One entry of `_waters`: the group id and its child meshes. -/
structure WaterNode where
  gid : ℕ
  children : List StObj
deriving DecidableEq

/-- A material as tracked by the stage module: either a plain material
identity or the electron-density glow variant created in stage 3. -/
inductive StMat where
  | ofId (n : ℕ)
  | glowVariant
deriving DecidableEq

/-- The tween commands the stage functions add to their timelines.
`complexShake` is the stage-1 yoyo shake (`repeat: 5, yoyo: true`), whose
final position equals its start; `detachToScene` is the `scene.attach`
call of stage 3; `labelHydronium` is the stage-3 label call. -/
inductive TweenCmd where
  | moveTo (id : ℕ) (target : Vec3)
  | rotateTo (id : ℕ) (target : Vec3)
  | complexScaleTo (target : Vec3)
  | complexShake
  | cameraTo (target : Vec3)
  | controlsTargetTo (target : Vec3)
  | setBondsVisible (b : Bool)
  | setGlowMaterial (id : ℕ)
  | detachToScene (id : ℕ)
  | labelHydronium

/-- Module state of `stages.js` plus the scene data its functions read
and write. -/
structure StagesState where
  objects : List StObj
  waters : List WaterNode
  positions : ℕ → Vec3
  rotations : ℕ → Vec3
  materials : ℕ → StMat
  savedPositions : List (ℕ × Vec3)
  savedMaterials : List (ℕ × StMat)
  complexVisible : Bool
  bondsVisible : Bool
  freeWaterVisible : Bool
  freeWaterPos : Vec3
  complexPos : Vec3
  complexScale : Vec3
  cameraPos : Vec3
  controlsTarget : Vec3
  stageDescPresent : Bool
  stageDescText : String
  stageDescHidden : Bool
  activeTimeline : Option (ℕ × List TweenCmd)
  nextTl : ℕ
  liveTl : ℕ

/-- `STAGE_DESCRIPTIONS[0..3]`. -/
def STAGE_DESCRIPTIONS : List String :=
  ["The octahedral aqua complex [Al(H₂O)₆]³⁺ — six water molecules coordinate to the Al³⁺ center via lone pairs on oxygen.",
   "The ionic lattice breaks apart. Ions separate and enter solution as individual species.",
   "Water molecules orient with their oxygen (δ−) toward the highly charged Al³⁺ cation, forming coordination bonds.",
   "The intense electric field of Al³⁺ polarises an O–H bond. The weakened proton transfers to a nearby water molecule, forming H₃O⁺."]

/-- `STAGE_DESCRIPTIONS[stage] || ''` with a (possibly negative) JS
index. -/
def descAt (stage : ℤ) : String :=
  if h : 0 ≤ stage ∧ stage.toNat < STAGE_DESCRIPTIONS.length then
    STAGE_DESCRIPTIONS.get ⟨stage.toNat, h.2⟩
  else ""

/-- `updateDescription(stage)` — guarded write of `#stage-desc`. -/
def updateDescription (stage : ℤ) (st : StagesState) : StagesState :=
  if st.stageDescPresent then
    { st with stageDescText := descAt stage, stageDescHidden := false }
  else st

/-- The timeline-kill prologue of `goToStage`. -/
def killActiveTimeline (st : StagesState) : StagesState :=
  if st.activeTimeline.isSome then
    { st with activeTimeline := none, liveTl := st.liveTl - 1 }
  else st

/-- Material-restore traversal shared by the stage functions:
`if (obj.isMesh && savedMaterials.has(obj)) obj.material = saved`. -/
def restoredMaterials (st : StagesState) : ℕ → StMat :=
  st.objects.foldl
    (fun f o =>
      if o.isMesh then
        match List.lookup o.id st.savedMaterials with
        | some m => updF f o.id m
        | none => f
      else f)
    st.materials

/-- The position tweens of `stageComplex`: every traversed mesh or group
with a saved position is tweened back to it. -/
def stage0Moves (st : StagesState) : List TweenCmd :=
  st.objects.filterMap fun o =>
    if o.isMesh || o.isGroup then
      (List.lookup o.id st.savedPositions).map (fun p => TweenCmd.moveTo o.id p)
    else none

/-- The full timeline of `stageComplex`: position restores, then the
scale, camera and controls-target resets. -/
noncomputable def stage0Cmds (st : StagesState) : List TweenCmd :=
  stage0Moves st ++
    [TweenCmd.complexScaleTo ⟨1, 1, 1⟩,
     TweenCmd.cameraTo ⟨4, 3, 5⟩,
     TweenCmd.controlsTargetTo ⟨0, 0, 0⟩]

/-- `stageComplex()` — reset to the original octahedral view. -/
noncomputable def stageComplex (st : StagesState) : StagesState :=
  { st with
    activeTimeline := some (st.nextTl, stage0Cmds st)
    nextTl := st.nextTl + 1
    liveTl := st.liveTl + 1
    complexVisible := true
    bondsVisible := true
    freeWaterVisible := false
    materials := restoredMaterials st }

/-- The oxygen child of a water group, as found by
`water.children.find(c => c.name === 'O')`. -/
def waterOxygenId (w : WaterNode) : Option ℕ :=
  (w.children.find? (fun c => c.name == "O")).map (fun c => c.id)

/-- The explode/tumble tweens of `stageDissolution`; `rand` is the
stream of `Math.random()` draws. -/
noncomputable def dissolutionCmds (rand : ℕ → ℝ) (st : StagesState) : List TweenCmd :=
  [TweenCmd.complexShake] ++
    (st.waters.enum.flatMap fun iw =>
      match waterOxygenId iw.2 with
      | none => []
      | some oid =>
        [TweenCmd.moveTo iw.2.gid
          (((3.5 : ℝ) + rand (3 * iw.1) * 1.5) • normalize (st.positions oid)),
         TweenCmd.rotateTo iw.2.gid
          ⟨(rand (3 * iw.1 + 1) - 0.5) * 2, (rand (3 * iw.1 + 2) - 0.5) * 2,
            (st.rotations iw.2.gid).z⟩]) ++
    [TweenCmd.setBondsVisible true, TweenCmd.setBondsVisible false,
     TweenCmd.cameraTo ⟨6, 5, 8⟩]

/-- `stageDissolution()` — explode the waters outward. -/
noncomputable def stageDissolution (rand : ℕ → ℝ) (st : StagesState) : StagesState :=
  { st with
    activeTimeline := some (st.nextTl, dissolutionCmds rand st)
    nextTl := st.nextTl + 1
    liveTl := st.liveTl + 1
    freeWaterVisible := false
    materials := restoredMaterials st }

/-- The synchronous scatter at the start of `stageHydration`: each water
group is put at `5 · normalize(oxygen.position)` with a random
rotation. -/
noncomputable def scatterWaters (rand : ℕ → ℝ) (st : StagesState) : StagesState :=
  st.waters.enum.foldl
    (fun s iw =>
      match waterOxygenId iw.2 with
      | none => s
      | some oid =>
        { s with
          positions := updF s.positions iw.2.gid ((5 : ℝ) • normalize (s.positions oid))
          rotations := updF s.rotations iw.2.gid
            ⟨(rand (100 + 3 * iw.1) - 0.5) * 3, (rand (101 + 3 * iw.1) - 0.5) * 3,
              (rand (102 + 3 * iw.1) - 0.5) * 3⟩ })
    st

/-- The convergence tweens of `stageHydration`: camera reset, each water
tweened to its saved position (`|| (0,0,0)`) with rotation zeroed, then
bonds shown. -/
noncomputable def hydrationCmds (st : StagesState) : List TweenCmd :=
  [TweenCmd.cameraTo ⟨4, 3, 5⟩] ++
    (st.waters.flatMap fun w =>
      [TweenCmd.moveTo w.gid ((List.lookup w.gid st.savedPositions).getD ⟨0, 0, 0⟩),
       TweenCmd.rotateTo w.gid ⟨0, 0, 0⟩]) ++
    [TweenCmd.setBondsVisible true]

/-- `stageHydration()` — waters converge onto Al³⁺. -/
noncomputable def stageHydration (rand : ℕ → ℝ) (st : StagesState) : StagesState :=
  let st1 : StagesState :=
    { st with
      activeTimeline := some (st.nextTl, [])
      nextTl := st.nextTl + 1
      liveTl := st.liveTl + 1
      freeWaterVisible := false
      complexVisible := true
      materials := restoredMaterials st }
  let st2 := scatterWaters rand st1
  let st3 : StagesState := { st2 with bondsVisible := false }
  { st3 with activeTimeline := some (st.nextTl, hydrationCmds st3) }

/-- The synchronous reset at the start of `stageHydrolysis`: positions
copied back from the snapshot, water-group rotations zeroed, materials
restored. -/
def resetToSaved (st : StagesState) : StagesState :=
  { st with
    positions :=
      st.objects.foldl
        (fun f o =>
          if o.isMesh || o.isGroup then
            match List.lookup o.id st.savedPositions with
            | some p => updF f o.id p
            | none => f
          else f)
        st.positions
    rotations :=
      st.objects.foldl
        (fun f o =>
          if o.isGroup && o.name == "Water" then updF f o.id ⟨0, 0, 0⟩ else f)
        st.rotations
    materials := restoredMaterials st }

/-- The timeline of `stageHydrolysis` once the target oxygen and
hydrogen have been found: camera zoom, glow build-up on the target O,
proton detachment and transfer to the free water, then the H₃O⁺
label. -/
noncomputable def hydrolysisCmds (oId hId : ℕ) : List TweenCmd :=
  [TweenCmd.cameraTo ⟨3.5, 1.5, 3⟩,
   TweenCmd.controlsTargetTo ⟨1.5, 0, 0⟩,
   TweenCmd.setGlowMaterial oId,
   TweenCmd.detachToScene hId,
   TweenCmd.moveTo hId (⟨4.5, 0.3, 0.5⟩ + ⟨0.5, 0.4, 0⟩),
   TweenCmd.labelHydronium]

/-- `stageHydrolysis()` — the timeline is created and assigned *before*
the early `return`, so even the bail-out branch leaves a (contentless)
active timeline.  (`_waters[0]` is never absent in the running program;
the bail-out models the `if (!targetO || !targetH) return`.) -/
noncomputable def stageHydrolysis (st : StagesState) : StagesState :=
  let st1 : StagesState :=
    { st with
      activeTimeline := some (st.nextTl, [])
      nextTl := st.nextTl + 1
      liveTl := st.liveTl + 1 }
  let st2 : StagesState := { resetToSaved st1 with complexPos := ⟨0, 0, 0⟩, bondsVisible := true }
  match st2.waters.head? with
  | none => st2
  | some w =>
    match w.children.find? (fun c => c.name == "O"),
          w.children.find? (fun c => c.name == "H1") with
    | some o, some h =>
      { st2 with
        freeWaterVisible := true
        freeWaterPos := ⟨4.5, 0.3, 0.5⟩
        activeTimeline := some (st.nextTl, hydrolysisCmds o.id h.id) }
    | _, _ => st2

/-- `goToStage(stage)`: kill any running timeline, update the
description, then dispatch on the stage value. -/
noncomputable def goToStage (rand : ℕ → ℝ) (stage : ℤ) (st : StagesState) : StagesState :=
  let st1 := updateDescription stage (killActiveTimeline st)
  if stage = 0 then stageComplex st1
  else if stage = 1 then stageDissolution rand st1
  else if stage = 2 then stageHydration rand st1
  else if stage = 3 then stageHydrolysis st1
  else st1

/-- The final effect of one tween command (the value it drives its
target to by completion). -/
noncomputable def applyCmd (st : StagesState) (c : TweenCmd) : StagesState :=
  match c with
  | .moveTo i p => { st with positions := updF st.positions i p }
  | .rotateTo i r => { st with rotations := updF st.rotations i r }
  | .complexScaleTo v => { st with complexScale := v }
  | .complexShake => st
  | .cameraTo p => { st with cameraPos := p }
  | .controlsTargetTo p => { st with controlsTarget := p }
  | .setBondsVisible b => { st with bondsVisible := b }
  | .setGlowMaterial i => { st with materials := updF st.materials i StMat.glowVariant }
  | .detachToScene _ => st
  | .labelHydronium => st

/-- Run the active timeline to completion. -/
noncomputable def applyTimeline (st : StagesState) : StagesState :=
  match st.activeTimeline with
  | some tl => tl.2.foldl applyCmd st
  | none => st

/-- Timeline bookkeeping invariant: the number of live timelines matches
the active reference, and the active timeline's id is below the
creation counter. -/
def TlInv (st : StagesState) : Prop :=
  st.liveTl = (if st.activeTimeline.isSome then 1 else 0) ∧
    ∀ i cs, st.activeTimeline = some (i, cs) → i < st.nextTl

end Stages

/-! ## Concrete inputs for witnesses and counterexamples -/

namespace Interaction

/-- A page on which every info-panel element is present. -/
def domFull : InterDom := ⟨true, true, true, true, true, true⟩

/-- A page on which the info panel is present but its `#info-title`
child is missing. -/
def domMissingTitle : InterDom := ⟨true, false, true, true, true, true⟩

/-- A page with no info-panel elements at all. -/
def domBare : InterDom := ⟨false, false, false, false, false, false⟩

/-- The Al mesh as seen by the raycaster. -/
def alObj : SceneObj := ⟨0, "Al", true, ⟨"Al", "Metal center (Lewis acid)", "+3"⟩⟩

/-- A clean interaction state: nothing selected, no mesh highlighted. -/
def stClean : IState :=
  ⟨none, none, fun _ => Material.std 0, ⟨"", "", "", "", true⟩⟩

/-- The state after `selectAtom(alObj)` from `stClean` on a bare page:
mesh `0` is selected and carries the highlight material. -/
def stSelected : IState :=
  ⟨some 0, some (Material.std 0), updF (fun _ => Material.std 0) 0 Material.highlight,
    ⟨"", "", "", "", true⟩⟩

/-- Selection bookkeeping invariant of `interaction.js`: only the
recorded selection may carry the highlight material, the stored
previous material is never the highlight itself, and the two
module-level variables are set and cleared together.  It holds in the
initial state and is preserved by both handlers. -/
def SelInv (st : IState) : Prop :=
  (∀ i, st.materials i = Material.highlight → st.previousSelection = some i) ∧
  (∀ pm, st.previousMaterial = some pm → pm ≠ Material.highlight) ∧
  st.previousSelection.isSome = st.previousMaterial.isSome

end Interaction

namespace MainJS

/-- Two stage buttons as wired in `index.html`. -/
def btnsW : List StageBtn := [⟨0, "Complex"⟩, ⟨1, "Dissolution"⟩]

/-- A main-module state whose `currentStage` is `0`. -/
def mainA : MainState Unit := ⟨0, [true, false], [], ()⟩

/-- A main-module state identical to `mainA` except that `currentStage`
is `1`. -/
def mainB : MainState Unit := ⟨1, [true, false], [], ()⟩

end MainJS

namespace Stages

/-- A degenerate random stream. -/
noncomputable def randZero : ℕ → ℝ := fun _ => 0

/-- A small concrete stage-module state. -/
noncomputable def stagesW : StagesState :=
  { objects := [⟨0, "Al", true, false⟩, ⟨1, "Water", false, true⟩]
    waters := []
    positions := fun _ => ⟨0, 0, 0⟩
    rotations := fun _ => ⟨0, 0, 0⟩
    materials := fun _ => StMat.ofId 0
    savedPositions := [(0, ⟨0, 0, 0⟩), (1, ⟨2, 0, 0⟩)]
    savedMaterials := []
    complexVisible := true
    bondsVisible := true
    freeWaterVisible := false
    freeWaterPos := ⟨0, 0, 0⟩
    complexPos := ⟨0, 0, 0⟩
    complexScale := ⟨1, 1, 1⟩
    cameraPos := ⟨4, 3, 5⟩
    controlsTarget := ⟨0, 0, 0⟩
    stageDescPresent := true
    stageDescText := ""
    stageDescHidden := false
    activeTimeline := none
    nextTl := 0
    liveTl := 0 }

end Stages

/-! ## Vector lemmas -/

namespace Vec3

@[simp] theorem add_x (a b : Vec3) : (a + b).x = a.x + b.x := rfl

@[simp] theorem add_y (a b : Vec3) : (a + b).y = a.y + b.y := rfl

@[simp] theorem add_z (a b : Vec3) : (a + b).z = a.z + b.z := rfl

@[simp] theorem sub_x (a b : Vec3) : (a - b).x = a.x - b.x := rfl

@[simp] theorem sub_y (a b : Vec3) : (a - b).y = a.y - b.y := rfl

@[simp] theorem sub_z (a b : Vec3) : (a - b).z = a.z - b.z := rfl

@[simp] theorem neg_x (a : Vec3) : (-a).x = -a.x := rfl

@[simp] theorem neg_y (a : Vec3) : (-a).y = -a.y := rfl

@[simp] theorem neg_z (a : Vec3) : (-a).z = -a.z := rfl

@[simp] theorem smul_x (r : ℝ) (a : Vec3) : (r • a).x = r * a.x := rfl

@[simp] theorem smul_y (r : ℝ) (a : Vec3) : (r • a).y = r * a.y := rfl

@[simp] theorem smul_z (r : ℝ) (a : Vec3) : (r • a).z = r * a.z := rfl

theorem dot_comm (a b : Vec3) : dot a b = dot b a := by
  unfold dot; ring

theorem dot_smul_left (r : ℝ) (a b : Vec3) : dot (r • a) b = r * dot a b := by
  unfold dot; simp; ring

theorem dot_smul_right (r : ℝ) (a b : Vec3) : dot a (r • b) = r * dot a b := by
  unfold dot; simp; ring

theorem dot_self_nonneg (a : Vec3) : 0 ≤ dot a a := by
  unfold dot
  nlinarith [mul_self_nonneg a.x, mul_self_nonneg a.y, mul_self_nonneg a.z]

theorem one_smul_vec (a : Vec3) : (1 : ℝ) • a = a := by
  ext <;> simp

/-- Lagrange identity for the cross product, at the component level. -/
theorem dot_cross_self (a b : Vec3) :
    dot (cross a b) (cross a b) = dot a a * dot b b - dot a b ^ 2 := by
  unfold dot cross; ring

theorem dot_cross_left (a b : Vec3) : dot a (cross a b) = 0 := by
  unfold dot cross; ring

/-- Bilinear expansion of a dot product of two linear combinations. -/
theorem dot_expand (p q r s : ℝ) (u v : Vec3) :
    dot (p • u + q • v) (r • u + s • v)
      = p * r * dot u u + (p * s + q * r) * dot u v + q * s * dot v v := by
  unfold dot; simp; ring

theorem vnorm_eq_one (a : Vec3) (h : dot a a = 1) : vnorm a = 1 := by
  unfold vnorm; rw [h, Real.sqrt_one]

theorem normalize_of_unit (a : Vec3) (h : dot a a = 1) : normalize a = a := by
  unfold normalize
  rw [vnorm_eq_one a h]
  norm_num [one_smul_vec]

theorem vnorm_smul (r : ℝ) (a : Vec3) : vnorm (r • a) = |r| * vnorm a := by
  unfold vnorm
  rw [dot_smul_left, dot_smul_right, show r * (r * dot a a) = r ^ 2 * dot a a by ring,
    Real.sqrt_mul (sq_nonneg r), Real.sqrt_sq_eq_abs]

theorem vnorm_pos (a : Vec3) (h : dot a a ≠ 0) : 0 < vnorm a := by
  unfold vnorm
  exact Real.sqrt_pos.mpr (lt_of_le_of_ne (dot_self_nonneg a) (Ne.symm h))

theorem dot_normalize_self (a : Vec3) (h : dot a a ≠ 0) :
    dot (normalize a) (normalize a) = 1 := by
  have hv : 0 < vnorm a := vnorm_pos a h
  have hsq : vnorm a ^ 2 = dot a a := Real.sq_sqrt (dot_self_nonneg a)
  unfold normalize
  rw [if_neg (ne_of_gt hv), dot_smul_left, dot_smul_right]
  field_simp
  nlinarith [hsq]

theorem dot_normalize_right (a b : Vec3) (h : dot a b = 0) :
    dot a (normalize b) = 0 := by
  unfold normalize
  rw [dot_smul_right, h, mul_zero]

theorem smul_neg_vec (r : ℝ) (a : Vec3) : r • (-a) = (-r) • a := by
  ext <;> simp

theorem add_sub_cancel_vec (a b : Vec3) : a + b - a = b := by
  ext <;> simp

end Vec3

/-! ## Claim C1 -/

namespace Atoms

open Vec3

theorem oPos_norm_of_octa (d : Vec3) (hd : d ∈ OCTA_DIRS) :
    vnorm (oPosOf d) = R_AL_O := by
  have key : dot (oPosOf d) (oPosOf d) = (1.9 : ℝ) ^ 2 := by
    simp only [OCTA_DIRS, List.mem_cons, List.not_mem_nil, or_false] at hd
    rcases hd with h | h | h | h | h | h <;> subst h <;>
      norm_num [oPosOf, R_AL_O, dot]
  unfold vnorm
  rw [key, Real.sqrt_sq (by norm_num)]
  norm_num [R_AL_O]

end Atoms

/-- C1: every water group built by `buildComplex` (one per octahedral
direction) has its oxygen mesh at distance exactly `R_AL_O = 1.90` scene
units from the origin, where the Al center mesh sits; hence all six
oxygen atoms are equidistant from the origin. -/
theorem claim_C1 (d : Hydro.Vec3) (hd : d ∈ Hydro.Atoms.OCTA_DIRS) :
    Hydro.Atoms.buildComplex.al.position = ⟨0, 0, 0⟩ ∧
    Hydro.Atoms.createWaterMolecule d ∈ Hydro.Atoms.buildComplex.waters ∧
    Hydro.Vec3.vnorm (Hydro.Atoms.oxygenMesh d).position = Hydro.Atoms.R_AL_O := by
  refine ⟨rfl, List.mem_map_of_mem _ hd, ?_⟩
  exact Hydro.Atoms.oPos_norm_of_octa d hd

/-- Witness for C1 at the concrete direction `(1,0,0)`. -/
theorem claim_C1_witness :
    (⟨1, 0, 0⟩ : Hydro.Vec3) ∈ Hydro.Atoms.OCTA_DIRS ∧
    (Hydro.Atoms.buildComplex.al.position = ⟨0, 0, 0⟩ ∧
      Hydro.Atoms.createWaterMolecule ⟨1, 0, 0⟩ ∈ Hydro.Atoms.buildComplex.waters ∧
      Hydro.Vec3.vnorm (Hydro.Atoms.oxygenMesh ⟨1, 0, 0⟩).position = Hydro.Atoms.R_AL_O) := by
  have hmem : (⟨1, 0, 0⟩ : Hydro.Vec3) ∈ Hydro.Atoms.OCTA_DIRS := by
    simp [Hydro.Atoms.OCTA_DIRS]
  exact ⟨hmem, claim_C1 ⟨1, 0, 0⟩ hmem⟩

/-! ## Claim C2 -/

namespace Atoms

theorem water_names (d : Vec3) :
    (createWaterMolecule d).children.map AtomMesh.name = ["O", "H1", "H2"] := rfl

end Atoms

/-- C2: every group returned by `createWaterMolecule` has exactly one
child mesh named `O` and exactly one child mesh named each of `H1` and
`H2`, and `buildComplex` creates six waters, all with this shape. -/
theorem claim_C2 :
    (∀ d : Hydro.Vec3,
      ((Hydro.Atoms.createWaterMolecule d).children.map Hydro.Atoms.AtomMesh.name).count "O" = 1 ∧
      ((Hydro.Atoms.createWaterMolecule d).children.map Hydro.Atoms.AtomMesh.name).count "H1" = 1 ∧
      ((Hydro.Atoms.createWaterMolecule d).children.map Hydro.Atoms.AtomMesh.name).count "H2" = 1) ∧
    Hydro.Atoms.buildComplex.waters.length = 6 ∧
    ∀ w ∈ Hydro.Atoms.buildComplex.waters,
      (w.children.map Hydro.Atoms.AtomMesh.name).count "O" = 1 ∧
      (w.children.map Hydro.Atoms.AtomMesh.name).count "H1" = 1 ∧
      (w.children.map Hydro.Atoms.AtomMesh.name).count "H2" = 1 := by
  have hshape : ∀ d : Hydro.Vec3,
      ((Hydro.Atoms.createWaterMolecule d).children.map Hydro.Atoms.AtomMesh.name).count "O" = 1 ∧
      ((Hydro.Atoms.createWaterMolecule d).children.map Hydro.Atoms.AtomMesh.name).count "H1" = 1 ∧
      ((Hydro.Atoms.createWaterMolecule d).children.map Hydro.Atoms.AtomMesh.name).count "H2" = 1 := by
    intro d
    rw [Hydro.Atoms.water_names]
    refine ⟨?_, ?_, ?_⟩ <;> decide
  refine ⟨hshape, rfl, ?_⟩
  intro w hw
  simp only [Hydro.Atoms.buildComplex, List.mem_map] at hw
  obtain ⟨d, _, rfl⟩ := hw
  exact hshape d

/-- Witness for C2's quantified part at the first water built by
`buildComplex`. -/
theorem claim_C2_witness :
    Hydro.Atoms.createWaterMolecule ⟨1, 0, 0⟩ ∈ Hydro.Atoms.buildComplex.waters ∧
    ((Hydro.Atoms.createWaterMolecule ⟨1, 0, 0⟩).children.map Hydro.Atoms.AtomMesh.name).count "O" = 1 ∧
    ((Hydro.Atoms.createWaterMolecule ⟨1, 0, 0⟩).children.map Hydro.Atoms.AtomMesh.name).count "H1" = 1 ∧
    ((Hydro.Atoms.createWaterMolecule ⟨1, 0, 0⟩).children.map Hydro.Atoms.AtomMesh.name).count "H2" = 1 := by
  have hmem : Hydro.Atoms.createWaterMolecule ⟨1, 0, 0⟩ ∈ Hydro.Atoms.buildComplex.waters := by
    apply List.mem_map_of_mem
    simp [Hydro.Atoms.OCTA_DIRS]
  exact ⟨hmem, claim_C2.2.2 _ hmem⟩

/-! ## Claim C10 — water geometry for an arbitrary unit direction -/

namespace Atoms

open Vec3

theorem zAxis_of_unit (d : Vec3) (hd : dot d d = 1) : zAxisOf d = d := by
  unfold zAxisOf
  exact normalize_of_unit d hd

theorem arbitrary_unit (d : Vec3) :
    dot (arbitraryOf d) (arbitraryOf d) = 1 := by
  unfold arbitraryOf
  split <;> norm_num [dot]

/-- The guard `|zAxis ⬝ (0,1,0)| > 0.99` guarantees the chosen seed is
never parallel to the axis: the dot product stays strictly inside the
unit interval. -/
theorem arbitrary_dot_sq_lt (d : Vec3) (hd : dot d d = 1) :
    dot (zAxisOf d) (arbitraryOf d) ^ 2 < 1 := by
  have hz := zAxis_of_unit d hd
  have hd' : d.x * d.x + d.y * d.y + d.z * d.z = 1 := hd
  unfold arbitraryOf
  rw [hz]
  split
  case isTrue h =>
    have hy : (0.99 : ℝ) < |d.y| := by
      have : dot d ⟨0, 1, 0⟩ = d.y := by simp [dot]
      rwa [this] at h
    have h2 : (0.99 : ℝ) ^ 2 < |d.y| ^ 2 := by
      nlinarith [abs_nonneg d.y]
    rw [sq_abs] at h2
    have hx : dot d ⟨1, 0, 0⟩ = d.x := by simp [dot]
    rw [hx]
    nlinarith [mul_self_nonneg d.z, mul_self_nonneg d.x]
  case isFalse h =>
    have hy : |d.y| ≤ (0.99 : ℝ) := by
      have : dot d ⟨0, 1, 0⟩ = d.y := by simp [dot]
      rw [this] at h
      linarith [not_lt.mp h]
    have h2 : |d.y| ^ 2 ≤ (0.99 : ℝ) ^ 2 := by
      nlinarith [abs_nonneg d.y]
    rw [sq_abs] at h2
    have hyy : dot d ⟨0, 1, 0⟩ = d.y := by simp [dot]
    rw [hyy]
    nlinarith

theorem cross_dot_pos (d : Vec3) (hd : dot d d = 1) :
    0 < dot (cross (zAxisOf d) (arbitraryOf d)) (cross (zAxisOf d) (arbitraryOf d)) := by
  rw [dot_cross_self]
  have h1 : dot (zAxisOf d) (zAxisOf d) = 1 := by rw [zAxis_of_unit d hd]; exact hd
  rw [h1, arbitrary_unit d, one_mul]
  linarith [arbitrary_dot_sq_lt d hd]

theorem xAxis_unit (d : Vec3) (hd : dot d d = 1) :
    dot (xAxisOf d) (xAxisOf d) = 1 := by
  unfold xAxisOf
  exact dot_normalize_self _ (ne_of_gt (cross_dot_pos d hd))

theorem zAxis_dot_xAxis (d : Vec3) :
    dot (zAxisOf d) (xAxisOf d) = 0 := by
  unfold xAxisOf
  exact dot_normalize_right _ _ (dot_cross_left _ _)

/-- The raw (pre-normalization) hydrogen direction of index `i`. -/
noncomputable def hRawOf (d : Vec3) (i : ℕ) : Vec3 :=
  Real.cos (Real.pi - halfAngle) • zAxisOf d
    + Real.sin (Real.pi - halfAngle) • (if i = 0 then xAxisOf d else -(xAxisOf d))

theorem hRaw_unit (d : Vec3) (hd : dot d d = 1) (i : ℕ) :
    dot (hRawOf d i) (hRawOf d i) = 1 := by
  have hzz : dot (zAxisOf d) (zAxisOf d) = 1 := by rw [zAxis_of_unit d hd]; exact hd
  have hxx := xAxis_unit d hd
  have hzx := zAxis_dot_xAxis d
  have hpyth := Real.sin_sq_add_cos_sq (Real.pi - halfAngle)
  unfold hRawOf
  by_cases hi : i = 0
  · rw [if_pos hi, dot_expand, hzz, hxx, hzx]
    nlinarith [hpyth]
  · rw [if_neg hi, smul_neg_vec, dot_expand, hzz, hxx, hzx]
    nlinarith [hpyth]

theorem hDir_eq_hRaw (d : Vec3) (hd : dot d d = 1) (i : ℕ) :
    hDirOf d i = hRawOf d i := by
  unfold hDirOf hRawOf
  exact normalize_of_unit _ (hRaw_unit d hd i)

theorem hDir_unit (d : Vec3) (hd : dot d d = 1) (i : ℕ) :
    dot (hDirOf d i) (hDirOf d i) = 1 := by
  rw [hDir_eq_hRaw d hd i]
  exact hRaw_unit d hd i

/-- The dot product of the two hydrogen directions is the cosine of the
H–O–H angle. -/
theorem hDir_dot (d : Vec3) (hd : dot d d = 1) :
    dot (hDirOf d 0) (hDirOf d 1) = Real.cos H_O_H_ANGLE := by
  have hzz : dot (zAxisOf d) (zAxisOf d) = 1 := by rw [zAxis_of_unit d hd]; exact hd
  have hxx := xAxis_unit d hd
  have hzx := zAxis_dot_xAxis d
  rw [hDir_eq_hRaw d hd 0, hDir_eq_hRaw d hd 1]
  unfold hRawOf
  rw [if_pos rfl, if_neg one_ne_zero, smul_neg_vec, dot_expand, hzz, hxx, hzx]
  have hsq : Real.cos (Real.pi - halfAngle) ^ 2 - Real.sin (Real.pi - halfAngle) ^ 2
      = Real.cos (2 * (Real.pi - halfAngle)) := (Real.cos_two_mul' _).symm
  have harg : Real.cos (2 * (Real.pi - halfAngle)) = Real.cos (2 * halfAngle) := by
    rw [show 2 * (Real.pi - halfAngle) = 2 * Real.pi - 2 * halfAngle by ring]
    exact Real.cos_two_pi_sub _
  have hhalf : 2 * halfAngle = H_O_H_ANGLE := by
    unfold halfAngle; ring
  nlinarith [hsq, harg, hhalf ▸ harg ▸ hsq]

theorem hVec_eq (d : Vec3) (i : ℕ) :
    hPosOf d i - oPosOf d = R_O_H • hDirOf d i := by
  unfold hPosOf
  exact add_sub_cancel_vec _ _

theorem hVec_norm (d : Vec3) (hd : dot d d = 1) (i : ℕ) :
    vnorm (hPosOf d i - oPosOf d) = R_O_H := by
  rw [hVec_eq, vnorm_smul, vnorm_eq_one _ (hDir_unit d hd i)]
  norm_num [R_O_H]

theorem angle_bounds : 0 ≤ H_O_H_ANGLE ∧ H_O_H_ANGLE ≤ Real.pi := by
  unfold H_O_H_ANGLE degToRad
  constructor
  · positivity
  · nlinarith [Real.pi_pos]

end Atoms

/-- C10: for every unit direction vector, each hydrogen mesh produced by
`createWaterMolecule` lies at distance exactly `R_O_H = 0.96` scene units
from that water's oxygen, and the angle between the two
oxygen-to-hydrogen vectors is exactly the H–O–H angle of 104.5 degrees
(exact real arithmetic). -/
theorem claim_C10 (d : Hydro.Vec3) (hd : Hydro.Vec3.dot d d = 1) :
    Hydro.Vec3.vnorm ((Hydro.Atoms.hydrogenMesh d 0).position - (Hydro.Atoms.oxygenMesh d).position)
      = Hydro.Atoms.R_O_H ∧
    Hydro.Vec3.vnorm ((Hydro.Atoms.hydrogenMesh d 1).position - (Hydro.Atoms.oxygenMesh d).position)
      = Hydro.Atoms.R_O_H ∧
    Real.arccos
      (Hydro.Vec3.dot
          ((Hydro.Atoms.hydrogenMesh d 0).position - (Hydro.Atoms.oxygenMesh d).position)
          ((Hydro.Atoms.hydrogenMesh d 1).position - (Hydro.Atoms.oxygenMesh d).position) /
        (Hydro.Vec3.vnorm ((Hydro.Atoms.hydrogenMesh d 0).position - (Hydro.Atoms.oxygenMesh d).position) *
          Hydro.Vec3.vnorm ((Hydro.Atoms.hydrogenMesh d 1).position - (Hydro.Atoms.oxygenMesh d).position)))
      = Hydro.Atoms.H_O_H_ANGLE := by
  have hpos0 : (Hydro.Atoms.hydrogenMesh d 0).position = Hydro.Atoms.hPosOf d 0 := rfl
  have hpos1 : (Hydro.Atoms.hydrogenMesh d 1).position = Hydro.Atoms.hPosOf d 1 := rfl
  have hopos : (Hydro.Atoms.oxygenMesh d).position = Hydro.Atoms.oPosOf d := rfl
  rw [hpos0, hpos1, hopos]
  refine ⟨Hydro.Atoms.hVec_norm d hd 0, Hydro.Atoms.hVec_norm d hd 1, ?_⟩
  rw [Hydro.Atoms.hVec_norm d hd 0, Hydro.Atoms.hVec_norm d hd 1,
    Hydro.Atoms.hVec_eq d 0, Hydro.Atoms.hVec_eq d 1,
    Hydro.Vec3.dot_smul_left, Hydro.Vec3.dot_smul_right,
    Hydro.Atoms.hDir_dot d hd]
  have hr : Hydro.Atoms.R_O_H = (0.96 : ℝ) := rfl
  rw [hr]
  rw [show (0.96 : ℝ) * (0.96 * Real.cos Hydro.Atoms.H_O_H_ANGLE) / (0.96 * 0.96)
      = Real.cos Hydro.Atoms.H_O_H_ANGLE by field_simp; ring]
  exact Real.arccos_cos Hydro.Atoms.angle_bounds.1 Hydro.Atoms.angle_bounds.2

/-- Witness for C10 at the concrete unit direction `(1,0,0)`. -/
theorem claim_C10_witness :
    Hydro.Vec3.dot (⟨1, 0, 0⟩ : Hydro.Vec3) ⟨1, 0, 0⟩ = 1 ∧
    Hydro.Vec3.vnorm
        ((Hydro.Atoms.hydrogenMesh ⟨1, 0, 0⟩ 0).position - (Hydro.Atoms.oxygenMesh ⟨1, 0, 0⟩).position)
      = Hydro.Atoms.R_O_H := by
  have hball : Hydro.Vec3.dot (⟨1, 0, 0⟩ : Hydro.Vec3) ⟨1, 0, 0⟩ = 1 := by
    norm_num [Hydro.Vec3.dot]
  exact ⟨hball, (claim_C10 ⟨1, 0, 0⟩ hball).1⟩


/-! ## Claim C3 — the pointerdown handler -/

namespace Interaction

theorem mem_rayHits (dist : SceneObj → Option ℚ) (objs : List SceneObj)
    (p : SceneObj × ℚ) :
    p ∈ rayHits dist objs ↔ p.1 ∈ objs ∧ dist p.1 = some p.2 := by
  simp only [rayHits, List.mem_filterMap, Option.map_eq_some']
  constructor
  · rintro ⟨x, hx, a, ha, heq⟩
    subst heq
    exact ⟨hx, ha⟩
  · rintro ⟨ho, hq⟩
    exact ⟨p.1, ho, p.2, hq, rfl⟩

theorem selectAtom_full (dom : InterDom) (obj : SceneObj) (st : IState)
    (hdom : dom.infoPanel = true ∧ dom.infoTitle = true ∧ dom.infoElement = true ∧
      dom.infoRole = true ∧ dom.infoCharge = true) :
    ∃ st', selectAtom dom obj st = Except.ok st' ∧
      st'.previousSelection = some obj.id ∧
      st'.materials obj.id = Material.highlight ∧
      st'.panel =
        { title := orDash obj.name, element := orDash obj.userData.element,
          role := orDash obj.userData.role, charge := orDash obj.userData.charge,
          hidden := false } := by
  obtain ⟨h1, h2, h3, h4, h5⟩ := hdom
  unfold selectAtom selectCore
  rcases st.previousSelection with _ | p <;> rcases st.previousMaterial with _ | pm <;>
    simp [h1, h2, h3, h4, h5, updF]

theorem restorePrev_of_nosel (st : IState) (h : st.previousSelection = none) :
    restorePrev st = st := by
  unfold restorePrev
  rw [h]

theorem restorePrev_of_nomat (st : IState) (h : st.previousMaterial = none) :
    restorePrev st = st := by
  unfold restorePrev
  rw [h]
  rcases h1 : st.previousSelection with _ | p <;> rfl

theorem restorePrev_of_some (st : IState) (p : ℕ) (pm : Material)
    (h1 : st.previousSelection = some p) (h2 : st.previousMaterial = some pm) :
    restorePrev st = { st with materials := updF st.materials p pm } := by
  unfold restorePrev
  rw [h1, h2]

theorem deselectCore_of_nosel (st : IState) (h : st.previousSelection = none) :
    deselectCore st = st := by
  unfold deselectCore
  rw [h]

theorem deselectCore_of_some (st : IState) (p : ℕ) (pm : Material)
    (h1 : st.previousSelection = some p) (h2 : st.previousMaterial = some pm) :
    deselectCore st =
      { st with
        materials := updF st.materials p pm
        previousSelection := none
        previousMaterial := none } := by
  unfold deselectCore
  rw [h1, h2]

theorem deselectAtom_materials (dom : InterDom) (st : IState) :
    (deselectAtom dom st).materials = (deselectCore st).materials := by
  unfold deselectAtom
  split <;> rfl

theorem deselectAtom_prevSel (dom : InterDom) (st : IState) :
    (deselectAtom dom st).previousSelection = (deselectCore st).previousSelection := by
  unfold deselectAtom
  split <;> rfl

theorem deselectAtom_prevMat (dom : InterDom) (st : IState) :
    (deselectAtom dom st).previousMaterial = (deselectCore st).previousMaterial := by
  unfold deselectAtom
  split <;> rfl

theorem deselectAtom_clears (dom : InterDom) (st : IState)
    (hpm : st.previousSelection.isSome = st.previousMaterial.isSome) :
    (deselectAtom dom st).previousSelection = none ∧
    (dom.infoPanel = true → (deselectAtom dom st).panel.hidden = true) := by
  constructor
  · rw [deselectAtom_prevSel]
    rcases h1 : st.previousSelection with _ | p
    · rw [deselectCore_of_nosel st h1, h1]
    · rcases h2 : st.previousMaterial with _ | pm
      · rw [h1, h2] at hpm
        simp at hpm
      · rw [deselectCore_of_some st p pm h1 h2]
  · intro h
    unfold deselectAtom
    rw [h]
    simp

end Interaction

/-- C3: on `pointerdown`, only `isMesh` objects are intersection
candidates (bond lines never are).  If some mesh is hit, the handler
succeeds and selects a hit mesh of minimal distance — swapping its
material for the highlight material and populating and showing the info
panel from its `userData` — and if no mesh is hit (even when non-mesh
objects are), the current selection is cleared and the panel hidden.
Stated for a page whose info-panel elements are all present, from any
state whose selection bookkeeping is consistent. -/
theorem claim_C3 (dom : Hydro.Interaction.InterDom)
    (dist : Hydro.Interaction.SceneObj → Option ℚ)
    (scene : List Hydro.Interaction.SceneObj) (st : Hydro.Interaction.IState)
    (hdom : dom.infoPanel = true ∧ dom.infoTitle = true ∧ dom.infoElement = true ∧
      dom.infoRole = true ∧ dom.infoCharge = true)
    (hpm : st.previousSelection.isSome = st.previousMaterial.isSome) :
    ((∃ o ∈ scene, o.isMesh = true ∧ (dist o).isSome) →
      ∃ m dm st',
        m ∈ scene ∧ m.isMesh = true ∧ dist m = some dm ∧
        (∀ o ∈ scene, o.isMesh = true → ∀ q, dist o = some q → dm ≤ q) ∧
        Hydro.Interaction.pointerdown dom dist scene st = Except.ok st' ∧
        st'.previousSelection = some m.id ∧
        st'.materials m.id = Hydro.Interaction.Material.highlight ∧
        st'.panel =
          { title := Hydro.Interaction.orDash m.name,
            element := Hydro.Interaction.orDash m.userData.element,
            role := Hydro.Interaction.orDash m.userData.role,
            charge := Hydro.Interaction.orDash m.userData.charge,
            hidden := false }) ∧
    ((∀ o ∈ scene, o.isMesh = true → dist o = none) →
      Hydro.Interaction.pointerdown dom dist scene st
          = Except.ok (Hydro.Interaction.deselectAtom dom st) ∧
      (Hydro.Interaction.deselectAtom dom st).previousSelection = none ∧
      (Hydro.Interaction.deselectAtom dom st).panel.hidden = true) := by
  have hperm := List.perm_insertionSort Hydro.Interaction.hitLe
    (Hydro.Interaction.rayHits dist (scene.filter (fun o => o.isMesh)))
  have hsorted := List.sorted_insertionSort Hydro.Interaction.hitLe
    (Hydro.Interaction.rayHits dist (scene.filter (fun o => o.isMesh)))
  rcases hS : List.insertionSort Hydro.Interaction.hitLe
      (Hydro.Interaction.rayHits dist (scene.filter (fun o => o.isMesh)))
    with _ | ⟨hd, tl⟩
  · -- no hit among the meshes
    rw [hS] at hperm
    have hnil : Hydro.Interaction.rayHits dist (scene.filter (fun o => o.isMesh)) = [] :=
      List.eq_nil_of_length_eq_zero (by simpa using hperm.length_eq.symm)
    have hpd : Hydro.Interaction.pointerdown dom dist scene st
        = Except.ok (Hydro.Interaction.deselectAtom dom st) := by
      simp only [Hydro.Interaction.pointerdown, Hydro.Interaction.intersectObjects]
      rw [hS]
    constructor
    · rintro ⟨o0, ho0, hmesh0, hhit0⟩
      exfalso
      obtain ⟨q0, hq0⟩ := Option.isSome_iff_exists.mp hhit0
      have : (o0, q0) ∈ Hydro.Interaction.rayHits dist (scene.filter (fun o => o.isMesh)) :=
        (Hydro.Interaction.mem_rayHits dist _ (o0, q0)).mpr
          ⟨List.mem_filter.mpr ⟨ho0, hmesh0⟩, hq0⟩
      rw [hnil] at this
      exact List.not_mem_nil _ this
    · intro _
      obtain ⟨hclear, hhide⟩ := Hydro.Interaction.deselectAtom_clears dom st hpm
      exact ⟨hpd, hclear, hhide hdom.1⟩
  · -- closest hit selected
    rw [hS] at hperm hsorted
    have hhd : hd ∈ Hydro.Interaction.rayHits dist (scene.filter (fun o => o.isMesh)) :=
      hperm.mem_iff.mp (List.mem_cons_self _ _)
    obtain ⟨hhd_mem, hhd_dist⟩ := (Hydro.Interaction.mem_rayHits dist _ hd).mp hhd
    obtain ⟨hhd_scene, hhd_mesh⟩ := List.mem_filter.mp hhd_mem
    have hpd : Hydro.Interaction.pointerdown dom dist scene st
        = Hydro.Interaction.selectAtom dom hd.1 st := by
      simp only [Hydro.Interaction.pointerdown, Hydro.Interaction.intersectObjects]
      rw [hS]
    constructor
    · intro _
      obtain ⟨st', hok, hsel, hmat, hpanel⟩ :=
        Hydro.Interaction.selectAtom_full dom hd.1 st hdom
      refine ⟨hd.1, hd.2, st', hhd_scene, hhd_mesh, hhd_dist, ?_, hpd.trans hok,
        hsel, hmat, hpanel⟩
      intro o ho hom q hq
      have hoq : (o, q) ∈ hd :: tl := by
        apply hperm.mem_iff.mpr
        exact (Hydro.Interaction.mem_rayHits dist _ (o, q)).mpr
          ⟨List.mem_filter.mpr ⟨ho, hom⟩, hq⟩
      rcases List.mem_cons.mp hoq with heq | htl
      · rw [show hd = (o, q) from heq.symm]
      · exact (List.sorted_cons.mp hsorted).1 (o, q) htl
    · intro hnone
      exfalso
      rw [hnone hd.1 hhd_scene hhd_mesh] at hhd_dist
      exact Option.noConfusion hhd_dist

/-- Witness for C3 on a concrete one-mesh scene with a full DOM. -/
theorem claim_C3_witness :
    ((Hydro.Interaction.InterDom.mk true true true true true true).infoPanel = true ∧
      (Hydro.Interaction.InterDom.mk true true true true true true).infoTitle = true ∧
      (Hydro.Interaction.InterDom.mk true true true true true true).infoElement = true ∧
      (Hydro.Interaction.InterDom.mk true true true true true true).infoRole = true ∧
      (Hydro.Interaction.InterDom.mk true true true true true true).infoCharge = true) ∧
    (∃ o ∈ [Hydro.Interaction.SceneObj.mk 0 "Al" true ⟨"Al", "Metal center (Lewis acid)", "+3"⟩],
      o.isMesh = true ∧ ((fun _ : Hydro.Interaction.SceneObj => some (1 : ℚ)) o).isSome) ∧
    ∃ m dm st',
      m ∈ [Hydro.Interaction.SceneObj.mk 0 "Al" true ⟨"Al", "Metal center (Lewis acid)", "+3"⟩] ∧
      m.isMesh = true ∧ (fun _ : Hydro.Interaction.SceneObj => some (1 : ℚ)) m = some dm ∧
      (∀ o ∈ [Hydro.Interaction.SceneObj.mk 0 "Al" true ⟨"Al", "Metal center (Lewis acid)", "+3"⟩],
        o.isMesh = true → ∀ q, (fun _ : Hydro.Interaction.SceneObj => some (1 : ℚ)) o = some q → dm ≤ q) ∧
      Hydro.Interaction.pointerdown (Hydro.Interaction.InterDom.mk true true true true true true)
          (fun _ => some (1 : ℚ))
          [Hydro.Interaction.SceneObj.mk 0 "Al" true ⟨"Al", "Metal center (Lewis acid)", "+3"⟩]
          (Hydro.Interaction.IState.mk none none (fun _ => Hydro.Interaction.Material.std 0)
            ⟨"", "", "", "", true⟩)
        = Except.ok st' ∧
      st'.previousSelection = some m.id ∧
      st'.materials m.id = Hydro.Interaction.Material.highlight ∧
      st'.panel =
        { title := Hydro.Interaction.orDash m.name,
          element := Hydro.Interaction.orDash m.userData.element,
          role := Hydro.Interaction.orDash m.userData.role,
          charge := Hydro.Interaction.orDash m.userData.charge,
          hidden := false } := by
  refine ⟨⟨rfl, rfl, rfl, rfl, rfl⟩, ⟨_, List.mem_cons_self _ _, rfl, rfl⟩, ?_⟩
  exact (claim_C3 (Hydro.Interaction.InterDom.mk true true true true true true)
    (fun _ => some (1 : ℚ))
    [Hydro.Interaction.SceneObj.mk 0 "Al" true ⟨"Al", "Metal center (Lewis acid)", "+3"⟩]
    (Hydro.Interaction.IState.mk none none (fun _ => Hydro.Interaction.Material.std 0)
      ⟨"", "", "", "", true⟩)
    ⟨rfl, rfl, rfl, rfl, rfl⟩ rfl).1
    ⟨_, List.mem_cons_self _ _, rfl, rfl⟩

/-! ## Claim C4 — DOM-safety of the handlers -/

/-- C4 counterexample: on a page where the info panel exists but its
`#info-title` child is missing, `selectAtom` throws (the child
dereferences inside `if (infoPanel)` are unguarded), refuting the claim
that the handlers complete without error whenever any info-panel child
element is null. -/
theorem claim_C4_counterexample :
    Hydro.Interaction.selectAtom Hydro.Interaction.domMissingTitle
        Hydro.Interaction.alObj Hydro.Interaction.stClean
      = Except.error () := rfl

/-- C4 (amended): `selectAtom` completes without error exactly when the
info panel is absent (every child access is then skipped by the
`if (infoPanel)` guard) or all four child elements are present; with the
panel present but a child missing it throws.  (`deselectAtom`, whose DOM
accesses are all guarded, is modelled as a total function and cannot
throw.) -/
theorem claim_C4 (dom : Hydro.Interaction.InterDom)
    (obj : Hydro.Interaction.SceneObj) (st : Hydro.Interaction.IState) :
    (Hydro.Interaction.selectAtom dom obj st).isOk
      = (!dom.infoPanel ||
          (dom.infoTitle && dom.infoElement && dom.infoRole && dom.infoCharge)) := by
  obtain ⟨p, t, e, r, c, cl⟩ := dom
  unfold Hydro.Interaction.selectAtom
  cases p <;> cases t <;> cases e <;> cases r <;> cases c <;>
    simp [Except.isOk, Except.toBool]

/-! ## Claim C9 — selection round-trip -/

namespace Interaction

theorem selectAtom_ok_core (dom : InterDom) (obj : SceneObj) (st st' : IState)
    (hok : selectAtom dom obj st = Except.ok st') :
    st'.previousSelection = some obj.id ∧
    st'.previousMaterial = some ((restorePrev st).materials obj.id) ∧
    st'.materials = updF (restorePrev st).materials obj.id Material.highlight := by
  unfold selectAtom at hok
  split at hok
  · split at hok
    · injection hok with h
      subst h
      exact ⟨rfl, rfl, rfl⟩
    · simp at hok
  · injection hok with h
    subst h
    exact ⟨rfl, rfl, rfl⟩

/-- Round trip: when the clicked mesh is not the current selection, its
material is restored by the following `deselectAtom`. -/
theorem select_deselect_roundtrip (dom : InterDom) (obj : SceneObj) (st st' : IState)
    (hne : st.previousSelection ≠ some obj.id)
    (hok : selectAtom dom obj st = Except.ok st') :
    (deselectAtom dom st').materials obj.id = st.materials obj.id := by
  obtain ⟨hsel, hmat, hmats⟩ := selectAtom_ok_core dom obj st st' hok
  have hM : (restorePrev st).materials obj.id = st.materials obj.id := by
    rcases h1 : st.previousSelection with _ | p
    · rw [restorePrev_of_nosel st h1]
    · rcases h2 : st.previousMaterial with _ | pm
      · rw [restorePrev_of_nomat st h2]
      · rw [restorePrev_of_some st p pm h1 h2]
        have hpne : obj.id ≠ p := by
          intro hcontra
          exact hne (h1.trans (by rw [hcontra]))
        simp [updF, hpne]
  rw [deselectAtom_materials, deselectCore_of_some st' obj.id _ hsel hmat]
  simp [updF, hM]

/-- `deselectAtom` with no active selection changes no mesh material. -/
theorem deselect_noop (dom : InterDom) (st : IState)
    (hnone : st.previousSelection = none) :
    (deselectAtom dom st).materials = st.materials := by
  rw [deselectAtom_materials, deselectCore_of_nosel st hnone]

/-- Under the bookkeeping invariant, after the restore step no mesh
carries the highlight material. -/
theorem restorePrev_no_highlight (st : IState) (hinv : SelInv st) (i : ℕ) :
    (restorePrev st).materials i ≠ Material.highlight := by
  obtain ⟨hi1, hi2, hi3⟩ := hinv
  rcases h1 : st.previousSelection with _ | p
  · rw [restorePrev_of_nosel st h1]
    intro hcon
    have := hi1 i hcon
    rw [h1] at this
    exact Option.noConfusion this
  · rcases h2 : st.previousMaterial with _ | pm
    · rw [h1, h2] at hi3
      simp at hi3
    · rw [restorePrev_of_some st p pm h1 h2]
      by_cases hip : i = p
      · subst hip
        simpa [updF] using hi2 pm h2
      · simp only [updF, if_neg hip]
        intro hcon
        have := hi1 i hcon
        rw [h1] at this
        exact hip (Option.some.inj this).symm

theorem selInv_select (dom : InterDom) (obj : SceneObj) (st st' : IState)
    (hinv : SelInv st) (hok : selectAtom dom obj st = Except.ok st') :
    SelInv st' := by
  obtain ⟨hsel, hmat, hmats⟩ := selectAtom_ok_core dom obj st st' hok
  have hR := restorePrev_no_highlight st hinv
  refine ⟨?_, ?_, ?_⟩
  · intro i hi
    rw [hmats] at hi
    rw [hsel]
    by_cases h : i = obj.id
    · rw [h]
    · exfalso
      rw [show updF (restorePrev st).materials obj.id Material.highlight i
          = (restorePrev st).materials i from by simp [updF, h]] at hi
      exact hR i hi
  · intro pm' hpm'
    rw [hmat] at hpm'
    injection hpm' with h
    subst h
    exact hR obj.id
  · rw [hsel, hmat]
    rfl

theorem selInv_deselect (dom : InterDom) (st : IState) (hinv : SelInv st) :
    SelInv (deselectAtom dom st) := by
  obtain ⟨hi1, hi2, hi3⟩ := hinv
  have hmats := deselectAtom_materials dom st
  have hsel := deselectAtom_prevSel dom st
  have hmat := deselectAtom_prevMat dom st
  rcases h1 : st.previousSelection with _ | p
  · rw [deselectCore_of_nosel st h1] at hmats hsel hmat
    have hmatn : st.previousMaterial = none := by
      rw [h1] at hi3
      rcases h2 : st.previousMaterial with _ | pm
      · rfl
      · rw [h2] at hi3
        simp at hi3
    refine ⟨?_, ?_, ?_⟩
    · intro i hi
      rw [hmats] at hi
      have := hi1 i hi
      rw [h1] at this
      exact Option.noConfusion this
    · intro pm' hpm'
      rw [hmat, hmatn] at hpm'
      exact Option.noConfusion hpm'
    · rw [hsel, hmat, h1, hmatn]
      rfl
  · rcases h2 : st.previousMaterial with _ | pm
    · rw [h1, h2] at hi3
      simp at hi3
    · rw [deselectCore_of_some st p pm h1 h2] at hmats hsel hmat
      refine ⟨?_, ?_, ?_⟩
      · intro i hi
        rw [hmats] at hi
        exfalso
        by_cases hip : i = p
        · subst hip
          rw [show ({ st with
              materials := updF st.materials i pm
              previousSelection := none
              previousMaterial := none } : IState).materials i = pm from by simp [updF]] at hi
          exact hi2 pm h2 hi
        · rw [show ({ st with
              materials := updF st.materials p pm
              previousSelection := none
              previousMaterial := none } : IState).materials i = st.materials i from by
                simp [updF, hip]] at hi
          have := hi1 i hi
          rw [h1] at this
          exact hip (Option.some.inj this).symm
      · intro pm' hpm'
        rw [hmat] at hpm'
        exact Option.noConfusion hpm'
      · rw [hsel, hmat]
        rfl

theorem selInv_at_most_one (st : IState) (hinv : SelInv st) :
    ∀ i j, st.materials i = Material.highlight → st.materials j = Material.highlight →
      i = j := by
  intro i j hi hj
  have h1 := hinv.1 i hi
  have h2 := hinv.1 j hj
  rw [h1] at h2
  injection h2

end Interaction

/-- C9 counterexample: in the reachable state where the clicked mesh is
already the active selection (it carries the highlight material),
`selectAtom` followed by `deselectAtom` leaves the mesh with its
*original* material, not with the highlight it carried right before the
selection — so the round trip does not restore the material to "its
value before the selection" for every mesh and state. -/
theorem claim_C9_counterexample :
    Hydro.Interaction.selectAtom Hydro.Interaction.domBare Hydro.Interaction.alObj
        Hydro.Interaction.stClean = Except.ok Hydro.Interaction.stSelected ∧
    Hydro.Interaction.stSelected.materials Hydro.Interaction.alObj.id
      = Hydro.Interaction.Material.highlight ∧
    (Hydro.Interaction.selectAtom Hydro.Interaction.domBare Hydro.Interaction.alObj
          Hydro.Interaction.stSelected).map
        (fun st' => (Hydro.Interaction.deselectAtom Hydro.Interaction.domBare st').materials
          Hydro.Interaction.alObj.id)
      = Except.ok (Hydro.Interaction.Material.std 0) ∧
    Hydro.Interaction.Material.std 0 ≠ Hydro.Interaction.Material.highlight := by
  refine ⟨rfl, rfl, rfl, ?_⟩
  intro h
  exact Hydro.Interaction.Material.noConfusion h

/-- C9 (amended): `selectAtom(m)` followed by `deselectAtom()` restores
`m`'s material to its value before the selection whenever `m` is not the
mesh currently selected (for the active selection the pair restores the
material saved at its first selection instead); `deselectAtom` with no
active selection changes no mesh material; and under the selection
bookkeeping invariant — which both handlers preserve — at most one mesh
carries the highlight material at any time. -/
theorem claim_C9 :
    (∀ (dom : Hydro.Interaction.InterDom) (obj : Hydro.Interaction.SceneObj)
        (st st' : Hydro.Interaction.IState),
      st.previousSelection ≠ some obj.id →
      Hydro.Interaction.selectAtom dom obj st = Except.ok st' →
      (Hydro.Interaction.deselectAtom dom st').materials obj.id = st.materials obj.id) ∧
    (∀ (dom : Hydro.Interaction.InterDom) (st : Hydro.Interaction.IState),
      st.previousSelection = none →
      (Hydro.Interaction.deselectAtom dom st).materials = st.materials) ∧
    (∀ (dom : Hydro.Interaction.InterDom) (obj : Hydro.Interaction.SceneObj)
        (st st' : Hydro.Interaction.IState),
      Hydro.Interaction.SelInv st →
      Hydro.Interaction.selectAtom dom obj st = Except.ok st' →
      Hydro.Interaction.SelInv st') ∧
    (∀ (dom : Hydro.Interaction.InterDom) (st : Hydro.Interaction.IState),
      Hydro.Interaction.SelInv st → Hydro.Interaction.SelInv (Hydro.Interaction.deselectAtom dom st)) ∧
    (∀ st : Hydro.Interaction.IState, Hydro.Interaction.SelInv st →
      ∀ i j, st.materials i = Hydro.Interaction.Material.highlight →
        st.materials j = Hydro.Interaction.Material.highlight → i = j) :=
  ⟨Hydro.Interaction.select_deselect_roundtrip, Hydro.Interaction.deselect_noop,
    Hydro.Interaction.selInv_select, Hydro.Interaction.selInv_deselect,
    Hydro.Interaction.selInv_at_most_one⟩

/-- Witness for C9 (amended) on concrete inputs: the round trip from the
clean state restores the Al mesh's material, and the clean state
satisfies the bookkeeping invariant. -/
theorem claim_C9_witness :
    Hydro.Interaction.stClean.previousSelection ≠ some Hydro.Interaction.alObj.id ∧
    Hydro.Interaction.selectAtom Hydro.Interaction.domBare Hydro.Interaction.alObj
        Hydro.Interaction.stClean = Except.ok Hydro.Interaction.stSelected ∧
    (Hydro.Interaction.deselectAtom Hydro.Interaction.domBare
        Hydro.Interaction.stSelected).materials Hydro.Interaction.alObj.id
      = Hydro.Interaction.stClean.materials Hydro.Interaction.alObj.id ∧
    Hydro.Interaction.SelInv Hydro.Interaction.stClean := by
  have hne : Hydro.Interaction.stClean.previousSelection ≠ some Hydro.Interaction.alObj.id := by
    intro h
    exact Option.noConfusion h
  refine ⟨hne, rfl, claim_C9.1 Hydro.Interaction.domBare Hydro.Interaction.alObj
    Hydro.Interaction.stClean Hydro.Interaction.stSelected hne rfl, ?_, ?_, ?_⟩
  · intro i hi
    exact Hydro.Interaction.Material.noConfusion hi
  · intro pm hpm
    exact Option.noConfusion hpm
  · rfl

/-! ## Claim C5 — the stage-button click handler -/

/-- C5: clicking a stage button leaves the 3D scene entirely unchanged;
the handler only updates `currentStage`, moves the `active` class to the
clicked button and appends a console log — and does nothing at all when
the clicked stage equals `currentStage`. -/
theorem claim_C5 {σ : Type} (btns : List Hydro.MainJS.StageBtn) (k : ℕ)
    (st : Hydro.MainJS.MainState σ) (b : Hydro.MainJS.StageBtn)
    (hb : btns.get? k = some b) :
    (Hydro.MainJS.stageBtnClick btns k st).scene = st.scene ∧
    (b.stage = st.currentStage → Hydro.MainJS.stageBtnClick btns k st = st) ∧
    (b.stage ≠ st.currentStage →
      Hydro.MainJS.stageBtnClick btns k st =
        { st with
          currentStage := b.stage
          btnActive := (st.btnActive.map (fun _ => false)).set k true
          logs := st.logs ++ [Hydro.MainJS.logMsg b] }) := by
  unfold Hydro.MainJS.stageBtnClick
  rw [hb]
  by_cases h : b.stage = st.currentStage
  · simp [h]
  · simp [h]

/-- Witness for C5: clicking the Dissolution button from stage 0. -/
theorem claim_C5_witness :
    Hydro.MainJS.btnsW.get? 1 = some (Hydro.MainJS.StageBtn.mk 1 "Dissolution") ∧
    ((Hydro.MainJS.stageBtnClick Hydro.MainJS.btnsW 1 Hydro.MainJS.mainA).scene
        = Hydro.MainJS.mainA.scene ∧
      ((Hydro.MainJS.StageBtn.mk 1 "Dissolution").stage = Hydro.MainJS.mainA.currentStage →
        Hydro.MainJS.stageBtnClick Hydro.MainJS.btnsW 1 Hydro.MainJS.mainA
          = Hydro.MainJS.mainA) ∧
      ((Hydro.MainJS.StageBtn.mk 1 "Dissolution").stage ≠ Hydro.MainJS.mainA.currentStage →
        Hydro.MainJS.stageBtnClick Hydro.MainJS.btnsW 1 Hydro.MainJS.mainA =
          { Hydro.MainJS.mainA with
            currentStage := (Hydro.MainJS.StageBtn.mk 1 "Dissolution").stage
            btnActive := (Hydro.MainJS.mainA.btnActive.map (fun _ => false)).set 1 true
            logs := Hydro.MainJS.mainA.logs
              ++ [Hydro.MainJS.logMsg (Hydro.MainJS.StageBtn.mk 1 "Dissolution")] })) :=
  ⟨rfl, claim_C5 Hydro.MainJS.btnsW 1 Hydro.MainJS.mainA
    (Hydro.MainJS.StageBtn.mk 1 "Dissolution") rfl⟩

/-! ## Claim C6 — module-level mutable state -/

/-- C6 counterexample: two states that agree on the scene, the buttons'
`active` classes and the log — differing only in the module-level
variable `currentStage` — produce observably different behaviour for
the same click event, refuting the claim that handler behaviour is a
function of the event arguments and the scene alone. -/
theorem claim_C6_counterexample :
    Hydro.MainJS.mainA.scene = Hydro.MainJS.mainB.scene ∧
    Hydro.MainJS.mainA.btnActive = Hydro.MainJS.mainB.btnActive ∧
    Hydro.MainJS.mainA.logs = Hydro.MainJS.mainB.logs ∧
    Hydro.MainJS.mainA.currentStage ≠ Hydro.MainJS.mainB.currentStage ∧
    (Hydro.MainJS.stageBtnClick Hydro.MainJS.btnsW 1 Hydro.MainJS.mainA).logs
      ≠ (Hydro.MainJS.stageBtnClick Hydro.MainJS.btnsW 1 Hydro.MainJS.mainB).logs := by
  refine ⟨rfl, rfl, rfl, by decide, ?_⟩
  intro h
  have hlen := congrArg List.length h
  simp [Hydro.MainJS.stageBtnClick, Hydro.MainJS.btnsW, Hydro.MainJS.mainA,
    Hydro.MainJS.mainB] at hlen

/-- C6 (amended): beyond DOM-reference caches the program does keep
mutable module-level state (`currentStage` in `main.js`,
`previousSelection`/`previousMaterial` in `interaction.js`, the saved
maps and active-timeline reference in `stages.js`), and handler
behaviour depends on it: there are states agreeing on the scene, the
`active` classes and the log whose different `currentStage` produces
different behaviour for the same click. -/
theorem claim_C6 :
    ∃ (s1 s2 : Hydro.MainJS.MainState Unit) (btns : List Hydro.MainJS.StageBtn) (k : ℕ),
      s1.scene = s2.scene ∧ s1.btnActive = s2.btnActive ∧ s1.logs = s2.logs ∧
      s1.currentStage ≠ s2.currentStage ∧
      (Hydro.MainJS.stageBtnClick btns k s1).logs
        ≠ (Hydro.MainJS.stageBtnClick btns k s2).logs := by
  refine ⟨Hydro.MainJS.mainA, Hydro.MainJS.mainB, Hydro.MainJS.btnsW, 1,
    rfl, rfl, rfl, by decide, ?_⟩
  intro h
  have hlen := congrArg List.length h
  simp [Hydro.MainJS.stageBtnClick, Hydro.MainJS.btnsW, Hydro.MainJS.mainA,
    Hydro.MainJS.mainB] at hlen

/-! ## Stage-module lemmas -/

namespace Stages

theorem foldl_applyCmd_positions_untouched (i : ℕ) (cmds : List TweenCmd)
    (h : ∀ c ∈ cmds, ∀ q, c ≠ TweenCmd.moveTo i q) :
    ∀ s : StagesState, (cmds.foldl applyCmd s).positions i = s.positions i := by
  induction cmds with
  | nil => intro s; rfl
  | cons c rest ih =>
    intro s
    rw [List.foldl_cons, ih (fun c' hm => h c' (List.mem_cons_of_mem _ hm))]
    have hc := h c (List.mem_cons_self _ _)
    cases c
    case moveTo j q =>
      have hji : ¬i = j := by
        intro hcontra
        exact hc q (by rw [hcontra])
      simp [applyCmd, updF, hji]
    all_goals rfl

theorem mem_stage0_filterMap (saved : List (ℕ × Vec3)) (objs : List StObj) (c : TweenCmd)
    (hc : c ∈ objs.filterMap (fun o =>
      if o.isMesh || o.isGroup then
        (List.lookup o.id saved).map (fun p => TweenCmd.moveTo o.id p)
      else none)) :
    ∃ o ∈ objs, ∃ q, c = TweenCmd.moveTo o.id q := by
  rw [List.mem_filterMap] at hc
  obtain ⟨o, ho, hx⟩ := hc
  refine ⟨o, ho, ?_⟩
  revert hx
  split
  · intro hx
    rw [Option.map_eq_some'] at hx
    obtain ⟨q, _, rfl⟩ := hx
    exact ⟨q, rfl⟩
  · intro hx
    exact absurd hx (by simp)

theorem foldl_stage0_restore (saved : List (ℕ × Vec3)) (o : StObj)
    (hog : (o.isMesh || o.isGroup) = true) (p : Vec3)
    (hp : List.lookup o.id saved = some p) :
    ∀ objs : List StObj, (objs.map StObj.id).Nodup → o ∈ objs →
      ∀ s : StagesState,
        ((objs.filterMap (fun o' =>
            if o'.isMesh || o'.isGroup then
              (List.lookup o'.id saved).map (fun q => TweenCmd.moveTo o'.id q)
            else none)).foldl applyCmd s).positions o.id = p := by
  intro objs
  induction objs with
  | nil =>
    intro _ ho
    cases ho
  | cons a rest ih =>
    intro hnodup ho s
    rw [List.map_cons, List.nodup_cons] at hnodup
    obtain ⟨hanotin, hndrest⟩ := hnodup
    rw [List.filterMap_cons]
    rcases List.mem_cons.mp ho with rfl | hmem
    · simp only [hog, if_true, hp, Option.map_some', List.foldl_cons]
      rw [foldl_applyCmd_positions_untouched o.id _ ?hno]
      · simp [applyCmd, updF]
      case hno =>
        intro c hcm q
        obtain ⟨o', ho', q', rfl⟩ := mem_stage0_filterMap saved rest c hcm
        intro heq
        injection heq with h1 _
        have hmm := List.mem_map_of_mem StObj.id ho'
        rw [h1] at hmm
        exact hanotin hmm
    · rcases hfa : (if a.isMesh || a.isGroup then
          (List.lookup a.id saved).map (fun q => TweenCmd.moveTo a.id q)
        else none) with _ | c
      · simp only [hfa]
        exact ih hndrest hmem s
      · simp only [hfa, List.foldl_cons]
        exact ih hndrest hmem (applyCmd s c)

/-- Running the `stageComplex` timeline to completion resets the camera,
the controls target and the complex scale, and puts every traversed mesh
or group with a saved position back at its snapshot. -/
theorem stageComplex_final (st : StagesState)
    (hnodup : (st.objects.map StObj.id).Nodup) :
    (applyTimeline (stageComplex st)).cameraPos = ⟨4, 3, 5⟩ ∧
    (applyTimeline (stageComplex st)).controlsTarget = ⟨0, 0, 0⟩ ∧
    (applyTimeline (stageComplex st)).complexScale = ⟨1, 1, 1⟩ ∧
    ∀ o ∈ st.objects, (o.isMesh || o.isGroup) = true →
      ∀ p, List.lookup o.id st.savedPositions = some p →
        (applyTimeline (stageComplex st)).positions o.id = p := by
  have h1 : applyTimeline (stageComplex st)
      = (stage0Cmds st).foldl applyCmd (stageComplex st) := rfl
  rw [h1]
  unfold stage0Cmds
  rw [List.foldl_append]
  refine ⟨rfl, rfl, rfl, ?_⟩
  intro o ho hog p hp
  show ((stage0Moves st).foldl applyCmd (stageComplex st)).positions o.id = p
  exact foldl_stage0_restore st.savedPositions o hog p hp st.objects hnodup ho
    (stageComplex st)

theorem killActive_objects (st : StagesState) :
    (killActiveTimeline st).objects = st.objects := by
  unfold killActiveTimeline
  split <;> rfl

theorem killActive_savedPositions (st : StagesState) :
    (killActiveTimeline st).savedPositions = st.savedPositions := by
  unfold killActiveTimeline
  split <;> rfl

theorem killActive_nextTl (st : StagesState) :
    (killActiveTimeline st).nextTl = st.nextTl := by
  unfold killActiveTimeline
  split <;> rfl

theorem killActive_clears (st : StagesState) :
    (killActiveTimeline st).activeTimeline = none := by
  unfold killActiveTimeline
  split
  · rfl
  · next h => exact Option.not_isSome_iff_eq_none.mp (by simpa using h)

theorem killActive_live (st : StagesState) (hinv : TlInv st) :
    (killActiveTimeline st).liveTl = 0 := by
  obtain ⟨hl, _⟩ := hinv
  unfold killActiveTimeline
  rcases h : st.activeTimeline with _ | tl
  · rw [h] at hl
    simp at hl
    simp [h, hl]
  · rw [h] at hl
    simp at hl
    simp [h, hl]

theorem updateDescription_objects (stage : ℤ) (st : StagesState) :
    (updateDescription stage st).objects = st.objects := by
  unfold updateDescription
  split <;> rfl

theorem updateDescription_savedPositions (stage : ℤ) (st : StagesState) :
    (updateDescription stage st).savedPositions = st.savedPositions := by
  unfold updateDescription
  split <;> rfl

theorem updateDescription_nextTl (stage : ℤ) (st : StagesState) :
    (updateDescription stage st).nextTl = st.nextTl := by
  unfold updateDescription
  split <;> rfl

theorem updateDescription_activeTimeline (stage : ℤ) (st : StagesState) :
    (updateDescription stage st).activeTimeline = st.activeTimeline := by
  unfold updateDescription
  split <;> rfl

theorem updateDescription_liveTl (stage : ℤ) (st : StagesState) :
    (updateDescription stage st).liveTl = st.liveTl := by
  unfold updateDescription
  split <;> rfl

theorem scatterWaters_frame (rand : ℕ → ℝ) (st : StagesState) :
    (scatterWaters rand st).activeTimeline = st.activeTimeline ∧
    (scatterWaters rand st).liveTl = st.liveTl ∧
    (scatterWaters rand st).nextTl = st.nextTl := by
  unfold scatterWaters
  generalize st.waters.enum = l
  induction l generalizing st with
  | nil => exact ⟨rfl, rfl, rfl⟩
  | cons a rest ih =>
    rw [List.foldl_cons]
    rcases h : waterOxygenId a.2 with _ | oid
    · simp only [h]
      exact ih st
    · simp only [h]
      exact ih _

/-- Every stage function creates exactly one fresh timeline: the result
carries an active timeline whose id is the incoming `nextTl`, the live
count rises by one and the creation counter advances. -/
theorem stageComplex_timeline (s1 : StagesState) :
    (∃ cmds, (stageComplex s1).activeTimeline = some (s1.nextTl, cmds)) ∧
    (stageComplex s1).liveTl = s1.liveTl + 1 ∧
    (stageComplex s1).nextTl = s1.nextTl + 1 :=
  ⟨⟨_, rfl⟩, rfl, rfl⟩

theorem stageDissolution_timeline (rand : ℕ → ℝ) (s1 : StagesState) :
    (∃ cmds, (stageDissolution rand s1).activeTimeline = some (s1.nextTl, cmds)) ∧
    (stageDissolution rand s1).liveTl = s1.liveTl + 1 ∧
    (stageDissolution rand s1).nextTl = s1.nextTl + 1 :=
  ⟨⟨_, rfl⟩, rfl, rfl⟩

theorem stageHydration_timeline (rand : ℕ → ℝ) (s1 : StagesState) :
    (∃ cmds, (stageHydration rand s1).activeTimeline = some (s1.nextTl, cmds)) ∧
    (stageHydration rand s1).liveTl = s1.liveTl + 1 ∧
    (stageHydration rand s1).nextTl = s1.nextTl + 1 := by
  unfold stageHydration
  refine ⟨⟨_, rfl⟩, ?_, ?_⟩
  · exact (scatterWaters_frame rand _).2.1
  · exact (scatterWaters_frame rand _).2.2

theorem stageHydrolysis_timeline (s1 : StagesState) :
    (∃ cmds, (stageHydrolysis s1).activeTimeline = some (s1.nextTl, cmds)) ∧
    (stageHydrolysis s1).liveTl = s1.liveTl + 1 ∧
    (stageHydrolysis s1).nextTl = s1.nextTl + 1 := by
  unfold stageHydrolysis
  dsimp only
  refine ⟨?_, ?_, ?_⟩
  · split
    · exact ⟨_, rfl⟩
    · split
      · exact ⟨_, rfl⟩
      · exact ⟨_, rfl⟩
  · split
    · rfl
    · split <;> rfl
  · split
    · rfl
    · split <;> rfl

theorem tlInv_of_fresh (x : StagesState) (n : ℕ)
    (hA : ∃ cmds, x.activeTimeline = some (n, cmds))
    (hL : x.liveTl = 1) (hN : x.nextTl = n + 1) : TlInv x := by
  obtain ⟨cmds, hA⟩ := hA
  refine ⟨?_, ?_⟩
  · simp [hA, hL]
  · intro i cs h
    rw [hA] at h
    have hpair := Option.some.inj h
    have hi : n = i := (Prod.ext_iff.mp hpair).1
    rw [hN, ← hi]
    omega

end Stages

namespace Stages

theorem goToStage_dispatch (rand : ℕ → ℝ) (st : StagesState) :
    goToStage rand 0 st = stageComplex (updateDescription 0 (killActiveTimeline st)) ∧
    goToStage rand 1 st = stageDissolution rand (updateDescription 1 (killActiveTimeline st)) ∧
    goToStage rand 2 st = stageHydration rand (updateDescription 2 (killActiveTimeline st)) ∧
    goToStage rand 3 st = stageHydrolysis (updateDescription 3 (killActiveTimeline st)) :=
  ⟨rfl, rfl, rfl, rfl⟩

theorem goToStage_default (rand : ℕ → ℝ) (s : ℤ) (st : StagesState)
    (h0 : s ≠ 0) (h1 : s ≠ 1) (h2 : s ≠ 2) (h3 : s ≠ 3) :
    goToStage rand s st = updateDescription s (killActiveTimeline st) := by
  unfold goToStage
  simp [h0, h1, h2, h3]

theorem goToStage_tlInv (rand : ℕ → ℝ) (s : ℤ) (st : StagesState) (hinv : TlInv st) :
    TlInv (goToStage rand s st) := by
  have hA : (updateDescription s (killActiveTimeline st)).activeTimeline = none := by
    rw [updateDescription_activeTimeline, killActive_clears]
  have hL : (updateDescription s (killActiveTimeline st)).liveTl = 0 := by
    rw [updateDescription_liveTl, killActive_live st hinv]
  by_cases h0 : s = 0
  · subst h0
    rw [(goToStage_dispatch rand st).1]
    obtain ⟨hAx, hLx, hNx⟩ := stageComplex_timeline (updateDescription 0 (killActiveTimeline st))
    exact tlInv_of_fresh _ _ hAx (by rw [hLx, hL]) hNx
  by_cases h1 : s = 1
  · subst h1
    rw [(goToStage_dispatch rand st).2.1]
    obtain ⟨hAx, hLx, hNx⟩ :=
      stageDissolution_timeline rand (updateDescription 1 (killActiveTimeline st))
    exact tlInv_of_fresh _ _ hAx (by rw [hLx, hL]) hNx
  by_cases h2 : s = 2
  · subst h2
    rw [(goToStage_dispatch rand st).2.2.1]
    obtain ⟨hAx, hLx, hNx⟩ :=
      stageHydration_timeline rand (updateDescription 2 (killActiveTimeline st))
    exact tlInv_of_fresh _ _ hAx (by rw [hLx, hL]) hNx
  by_cases h3 : s = 3
  · subst h3
    rw [(goToStage_dispatch rand st).2.2.2]
    obtain ⟨hAx, hLx, hNx⟩ :=
      stageHydrolysis_timeline (updateDescription 3 (killActiveTimeline st))
    exact tlInv_of_fresh _ _ hAx (by rw [hLx, hL]) hNx
  rw [goToStage_default rand s st h0 h1 h2 h3]
  refine ⟨?_, ?_⟩
  · rw [hL, hA]
    rfl
  · intro i cs h
    rw [hA] at h
    exact Option.noConfusion h

theorem goToStage_id (rand : ℕ → ℝ) (s : ℤ) (st : StagesState) :
    ∀ j cs', (goToStage rand s st).activeTimeline = some (j, cs') → j = st.nextTl := by
  intro j cs' hj
  have hN : (updateDescription s (killActiveTimeline st)).nextTl = st.nextTl := by
    rw [updateDescription_nextTl, killActive_nextTl]
  have hA : (updateDescription s (killActiveTimeline st)).activeTimeline = none := by
    rw [updateDescription_activeTimeline, killActive_clears]
  by_cases h0 : s = 0
  · subst h0
    rw [(goToStage_dispatch rand st).1] at hj
    obtain ⟨⟨cmds0, hAx⟩, _, _⟩ := stageComplex_timeline (updateDescription 0 (killActiveTimeline st))
    rw [hAx] at hj
    have hpair := Option.some.inj hj
    rw [Prod.mk.injEq] at hpair
    rw [← hpair.1, hN]
  by_cases h1 : s = 1
  · subst h1
    rw [(goToStage_dispatch rand st).2.1] at hj
    obtain ⟨⟨cmds0, hAx⟩, _, _⟩ :=
      stageDissolution_timeline rand (updateDescription 1 (killActiveTimeline st))
    rw [hAx] at hj
    have hpair := Option.some.inj hj
    rw [Prod.mk.injEq] at hpair
    rw [← hpair.1, hN]
  by_cases h2 : s = 2
  · subst h2
    rw [(goToStage_dispatch rand st).2.2.1] at hj
    obtain ⟨⟨cmds0, hAx⟩, _, _⟩ :=
      stageHydration_timeline rand (updateDescription 2 (killActiveTimeline st))
    rw [hAx] at hj
    have hpair := Option.some.inj hj
    rw [Prod.mk.injEq] at hpair
    rw [← hpair.1, hN]
  by_cases h3 : s = 3
  · subst h3
    rw [(goToStage_dispatch rand st).2.2.2] at hj
    obtain ⟨⟨cmds0, hAx⟩, _, _⟩ :=
      stageHydrolysis_timeline (updateDescription 3 (killActiveTimeline st))
    rw [hAx] at hj
    have hpair := Option.some.inj hj
    rw [Prod.mk.injEq] at hpair
    rw [← hpair.1, hN]
  rw [goToStage_default rand s st h0 h1 h2 h3, hA] at hj
  exact Option.noConfusion hj

end Stages

/-- C7: `goToStage` is a 4-way dispatch — stages 0, 1, 2, 3 invoke
exactly `stageComplex`, `stageDissolution`, `stageHydration` and
`stageHydrolysis` respectively on the killed-and-described state; when
the stage-0 timeline completes, the camera is back at `(4, 3, 5)` with
the controls target at the origin and every saved mesh and group
position equals its snapshot; any other stage value changes nothing
beyond killing the active timeline and updating the description. -/
theorem claim_C7 (rand : ℕ → ℝ) (st : Hydro.Stages.StagesState)
    (hnodup : (st.objects.map Hydro.Stages.StObj.id).Nodup) :
    Hydro.Stages.goToStage rand 0 st
      = Hydro.Stages.stageComplex
          (Hydro.Stages.updateDescription 0 (Hydro.Stages.killActiveTimeline st)) ∧
    Hydro.Stages.goToStage rand 1 st
      = Hydro.Stages.stageDissolution rand
          (Hydro.Stages.updateDescription 1 (Hydro.Stages.killActiveTimeline st)) ∧
    Hydro.Stages.goToStage rand 2 st
      = Hydro.Stages.stageHydration rand
          (Hydro.Stages.updateDescription 2 (Hydro.Stages.killActiveTimeline st)) ∧
    Hydro.Stages.goToStage rand 3 st
      = Hydro.Stages.stageHydrolysis
          (Hydro.Stages.updateDescription 3 (Hydro.Stages.killActiveTimeline st)) ∧
    (Hydro.Stages.applyTimeline (Hydro.Stages.goToStage rand 0 st)).cameraPos = ⟨4, 3, 5⟩ ∧
    (Hydro.Stages.applyTimeline (Hydro.Stages.goToStage rand 0 st)).controlsTarget
      = ⟨0, 0, 0⟩ ∧
    (∀ o ∈ st.objects, (o.isMesh || o.isGroup) = true →
      ∀ p, List.lookup o.id st.savedPositions = some p →
        (Hydro.Stages.applyTimeline (Hydro.Stages.goToStage rand 0 st)).positions o.id = p) ∧
    (∀ s : ℤ, s ≠ 0 → s ≠ 1 → s ≠ 2 → s ≠ 3 →
      Hydro.Stages.goToStage rand s st
        = Hydro.Stages.updateDescription s (Hydro.Stages.killActiveTimeline st)) := by
  obtain ⟨hd0, hd1, hd2, hd3⟩ := Hydro.Stages.goToStage_dispatch rand st
  have hobjK : (Hydro.Stages.updateDescription 0 (Hydro.Stages.killActiveTimeline st)).objects
      = st.objects := by
    rw [Hydro.Stages.updateDescription_objects, Hydro.Stages.killActive_objects]
  have hsavK : (Hydro.Stages.updateDescription 0 (Hydro.Stages.killActiveTimeline st)).savedPositions
      = st.savedPositions := by
    rw [Hydro.Stages.updateDescription_savedPositions, Hydro.Stages.killActive_savedPositions]
  obtain ⟨hcam, htar, _, hposs⟩ := Hydro.Stages.stageComplex_final
    (Hydro.Stages.updateDescription 0 (Hydro.Stages.killActiveTimeline st))
    (by rw [hobjK]; exact hnodup)
  refine ⟨hd0, hd1, hd2, hd3, ?_, ?_, ?_,
    fun s h0 h1 h2 h3 => Hydro.Stages.goToStage_default rand s st h0 h1 h2 h3⟩
  · rw [hd0]
    exact hcam
  · rw [hd0]
    exact htar
  · intro o ho hog p hp
    rw [hd0]
    exact hposs o (by rw [hobjK]; exact ho) hog p (by rw [hsavK]; exact hp)

/-- Witness for C7 on a concrete state: after `goToStage(0)` completes,
the camera is at `(4, 3, 5)`, the target is at the origin, and the
`Water` group (id 1) is back at its snapshot `(2, 0, 0)`. -/
theorem claim_C7_witness :
    (Hydro.Stages.stagesW.objects.map Hydro.Stages.StObj.id).Nodup ∧
    (Hydro.Stages.applyTimeline
        (Hydro.Stages.goToStage Hydro.Stages.randZero 0 Hydro.Stages.stagesW)).cameraPos
      = ⟨4, 3, 5⟩ ∧
    (Hydro.Stages.applyTimeline
        (Hydro.Stages.goToStage Hydro.Stages.randZero 0 Hydro.Stages.stagesW)).controlsTarget
      = ⟨0, 0, 0⟩ ∧
    (Hydro.Stages.applyTimeline
        (Hydro.Stages.goToStage Hydro.Stages.randZero 0 Hydro.Stages.stagesW)).positions 1
      = ⟨2, 0, 0⟩ := by
  have hnd : (Hydro.Stages.stagesW.objects.map Hydro.Stages.StObj.id).Nodup := by decide
  have hall := claim_C7 Hydro.Stages.randZero Hydro.Stages.stagesW hnd
  refine ⟨hnd, hall.2.2.2.2.1, hall.2.2.2.2.2.1, ?_⟩
  exact hall.2.2.2.2.2.2.1 ⟨1, "Water", false, true⟩ (by decide) rfl ⟨2, 0, 0⟩ rfl

/-- C8: at most one stage-module timeline is ever live.  `goToStage`
preserves the timeline bookkeeping invariant (so the live count never
exceeds one, across any sequence of calls), the kill prologue always
clears the active reference before the dispatched stage function creates
its one new timeline, and any timeline active after a call is distinct
from the one active before it. -/
theorem claim_C8 :
    (∀ (rand : ℕ → ℝ) (s : ℤ) (st : Hydro.Stages.StagesState),
      Hydro.Stages.TlInv st → Hydro.Stages.TlInv (Hydro.Stages.goToStage rand s st)) ∧
    (∀ (rand : ℕ → ℝ) (s : ℤ) (st : Hydro.Stages.StagesState),
      Hydro.Stages.TlInv st → (Hydro.Stages.goToStage rand s st).liveTl ≤ 1) ∧
    (∀ st : Hydro.Stages.StagesState,
      (Hydro.Stages.killActiveTimeline st).activeTimeline = none) ∧
    (∀ (rand : ℕ → ℝ) (s : ℤ) (st : Hydro.Stages.StagesState),
      Hydro.Stages.TlInv st → ∀ i cs j cs', st.activeTimeline = some (i, cs) →
        (Hydro.Stages.goToStage rand s st).activeTimeline = some (j, cs') → i ≠ j) ∧
    (∀ (rand : ℕ → ℝ) (calls : List ℤ) (st : Hydro.Stages.StagesState),
      Hydro.Stages.TlInv st →
        Hydro.Stages.TlInv
          (calls.foldl (fun a c => Hydro.Stages.goToStage rand c a) st)) := by
  have hfold : ∀ (rand : ℕ → ℝ) (calls : List ℤ) (st : Hydro.Stages.StagesState),
      Hydro.Stages.TlInv st →
        Hydro.Stages.TlInv (calls.foldl (fun a c => Hydro.Stages.goToStage rand c a) st) := by
    intro rand calls
    induction calls with
    | nil => intro st h; exact h
    | cons c rest ih =>
      intro st h
      rw [List.foldl_cons]
      exact ih _ (Hydro.Stages.goToStage_tlInv rand c st h)
  refine ⟨Hydro.Stages.goToStage_tlInv, ?_, Hydro.Stages.killActive_clears, ?_, hfold⟩
  · intro rand s st h
    rw [(Hydro.Stages.goToStage_tlInv rand s st h).1]
    split <;> omega
  · intro rand s st h i cs j cs' hi hj
    have hlt : i < st.nextTl := h.2 i cs hi
    have hj' : j = st.nextTl := Hydro.Stages.goToStage_id rand s st j cs' hj
    omega

/-- Witness for C8 on a concrete state and a concrete call sequence
(including an out-of-range stage). -/
theorem claim_C8_witness :
    Hydro.Stages.TlInv Hydro.Stages.stagesW ∧
    Hydro.Stages.TlInv
      (Hydro.Stages.goToStage Hydro.Stages.randZero 3 Hydro.Stages.stagesW) ∧
    (Hydro.Stages.goToStage Hydro.Stages.randZero 3 Hydro.Stages.stagesW).liveTl ≤ 1 ∧
    Hydro.Stages.TlInv
      (([0, 1, 2, 3, 7] : List ℤ).foldl
        (fun a c => Hydro.Stages.goToStage Hydro.Stages.randZero c a)
        Hydro.Stages.stagesW) := by
  have hinv : Hydro.Stages.TlInv Hydro.Stages.stagesW :=
    ⟨rfl, fun i cs h => Option.noConfusion h⟩
  exact ⟨hinv, claim_C8.1 Hydro.Stages.randZero 3 Hydro.Stages.stagesW hinv,
    claim_C8.2.1 Hydro.Stages.randZero 3 Hydro.Stages.stagesW hinv,
    claim_C8.2.2.2.2 Hydro.Stages.randZero [0, 1, 2, 3, 7] Hydro.Stages.stagesW hinv⟩

end Hydro
